import Mathlib

/-!
Verification of the session-memory retrieval and deduplication pipeline.

This file shallowly embeds the Python sources of the repository
(`hooks/keyword_extractor.py`, `hooks/memory_injection.py`,
`hooks/prompt_context.py`, `hooks/fork_suggest_hook.py`) into Lean.

Modelling conventions:
* Python strings are Lean `String`s; slicing `s[:n]` is `pyTake`, `str.strip()`
  is `pyStrip`, `str.split(sep)` for a one-character separator is `splitStr`,
  `sep.join(...)` is `joinCh`/`joinNL`, `str.replace` is `pyReplace`,
  `needle in hay` is `pyIn`, `str.lower()` is `pyLower` (ASCII letters, the
  only case the pipeline exercises).
* Python `dict.get(k, d)` on the optional string fields of candidate records
  is `Option.getD`; a key mapped to the empty string is `some ""` (falsy in
  Python boolean contexts, which the embedding tests with `= ""`).
* Python `set` objects are modelled as deduplicated lists; iteration order of
  a Python set is unspecified, so the embedding fixes a canonical order and
  every proved property is order-independent (membership only).
* External effects (subprocess calls, the filesystem under /tmp, the optional
  YAKE library, `hashlib.md5`, `json.loads`) are inputs of the embedded
  functions: a `Subproc` value is the observed outcome of one subprocess
  call as classified by the call site's except clause, an `FS` value is the
  state of the dedup files together with read/write failure flags, and
  parsing/hashing oracles are function parameters.
* Exceptions are embedded at two layers.  The component layer works on
  well-typed candidate records (`Mem`), matching the formatter- and
  store-level contracts, and its handled failures are constructors of the
  input types.  The driver layer additionally models what the source does
  *not* handle: parsed JSON items that are not objects (`JItem.nonobj`, on
  which every Python `.get` raises `AttributeError`), OS errors outside a
  call site's except clause (`SubprocOS.osError`), and the one unguarded
  subprocess call (`WhichOutcome`).  Code that can propagate an exception
  returns a `PyResult`, whose `raised` constructor is an uncaught
  exception reaching — and crashing — the driver.
-/

namespace Toolkit

/-! ## Python string primitives -/

/-- The whitespace characters stripped by Python `str.strip()`. -/
def pyWs (c : Char) : Bool :=
  c = ' ' || c = '\t' || c = '\n' || c = '\r' || c = '\x0b' || c = '\x0c'

/-- `str.strip()` on the character list. -/
def stripList (l : List Char) : List Char :=
  ((l.dropWhile pyWs).reverse.dropWhile pyWs).reverse

/-- Python `s.strip()`. -/
def pyStrip (s : String) : String := ⟨stripList s.data⟩

/-- Python slicing `s[:n]`. -/
def pyTake (n : Nat) (s : String) : String := ⟨s.data.take n⟩

/-- Core of Python `s.split(sep)` for a one-character separator:
`acc` holds the (reversed) characters of the current field. -/
def splitChAux (sep : Char) : List Char → List Char → List (List Char)
  | [], acc => [acc.reverse]
  | c :: cs, acc =>
    if c = sep then acc.reverse :: splitChAux sep cs []
    else splitChAux sep cs (c :: acc)

/-- Python `s.split(sep)` for a one-character separator
(`"".split(sep) = [""]`, like Python). -/
def splitStr (sep : Char) (s : String) : List String :=
  (splitChAux sep s.data []).map String.mk

/-- Python `s.split("\n")`. -/
def splitNL (s : String) : List String := splitStr '\n' s

/-- Python `sep.join(...)` on character lists, for a one-character
separator. -/
def joinCh (sep : Char) : List (List Char) → List Char
  | [] => []
  | [x] => x
  | x :: y :: tl => x ++ sep :: joinCh sep (y :: tl)

/-- Python `"\n".join(strings)`. -/
def joinNL (l : List String) : String := ⟨joinCh '\n' (l.map String.data)⟩

/-- Fuel-indexed core of Python `s.replace(pat, rep)`:
left-to-right, non-overlapping.  The fuel is the length of the scanned
list, which suffices for the non-empty patterns the pipeline uses. -/
def pyReplaceAux : Nat → List Char → List Char → List Char → List Char
  | 0, s, _, _ => s
  | _ + 1, [], _, _ => []
  | fuel + 1, c :: cs, pat, rep =>
    if pat.isPrefixOf (c :: cs) then
      rep ++ pyReplaceAux fuel ((c :: cs).drop pat.length) pat rep
    else c :: pyReplaceAux fuel cs pat rep

/-- Python `s.replace(pat, rep)` (for non-empty `pat`). -/
def pyReplace (s pat rep : String) : String :=
  ⟨pyReplaceAux s.data.length s.data pat.data rep.data⟩

/-- Does `needle` occur as a contiguous sublist of `hay`? -/
def containsAux : List Char → List Char → Bool
  | needle, [] => needle.isEmpty
  | needle, c :: rest => needle.isPrefixOf (c :: rest) || containsAux needle rest

/-- Python `needle in hay` on strings. -/
def pyIn (needle hay : String) : Bool := containsAux needle.data hay.data

/-- ASCII lowering of one character (Python `str.lower()` restricted to
ASCII, the only characters the keyword pipeline produces). -/
def pyLowerChar (c : Char) : Char :=
  if 'A' ≤ c && c ≤ 'Z' then Char.ofNat (c.toNat + 32) else c

/-- Python `s.lower()` (ASCII). -/
def pyLower (s : String) : String := ⟨s.data.map pyLowerChar⟩

/-- The space-separated tokens of a query string (empty fields dropped,
matching how a shell / the search service tokenizes the query). -/
def queryTokens (q : String) : List String :=
  ((splitChAux ' ' q.data []).map String.mk).filter (· ≠ "")

/-- Python `a or b` for an optional string `a` (falsy = absent or empty). -/
def pyTruthyOr (a : Option String) (b : String) : String :=
  match a with
  | some s => if s = "" then b else s
  | none => b

/-! ## Query Builder (`hooks/keyword_extractor.py`) -/

/-- The fixed stop-word list `STOPWORDS` of `keyword_extractor.py`,
verbatim. -/
def STOPWORDS : List String :=
  ["i", "me", "my", "we", "our", "you", "your", "the", "a", "an", "is", "are",
   "was", "were", "be", "been", "being", "have", "has", "had", "do", "does",
   "did", "will", "would", "could", "should", "may", "might", "must", "can",
   "to", "of", "in", "for", "on", "with", "at", "by", "from", "as", "into",
   "and", "but", "or", "so", "yet", "both", "either", "neither", "not", "only",
   "this", "that", "these", "those", "what", "which", "who", "how", "why",
   "if", "then", "else", "because", "about", "think", "want", "need", "like",
   "know", "see", "look", "make", "take", "get", "use", "try", "work", "let",
   "going", "looking", "using", "file", "code", "user", "just", "now", "here",
   "there", "some", "all", "any", "each", "more", "most", "other", "also",
   "very", "too", "less", "such", "than", "when", "where", "while", "after",
   "before", "during", "through", "between", "under", "over", "above", "below"]

/-- First character class of the fallback word regex `[a-z][a-z0-9_-]*`. -/
def isWordStart (c : Char) : Bool := 'a' ≤ c && c ≤ 'z'

/-- Continuation character class of the fallback word regex. -/
def isWordCont (c : Char) : Bool :=
  isWordStart c || ('0' ≤ c && c ≤ '9') || c = '_' || c = '-'

/-- Fuel-indexed `re.findall(r"[a-z][a-z0-9_-]*", ·)`: greedy maximal
matches, scanned left to right.  Fuel = length of the scanned list. -/
def findWordsAux : Nat → List Char → List String
  | 0, _ => []
  | _ + 1, [] => []
  | fuel + 1, c :: cs =>
    if isWordStart c then
      ⟨c :: cs.takeWhile isWordCont⟩ :: findWordsAux fuel (cs.dropWhile isWordCont)
    else findWordsAux fuel cs

/-- `re.findall(r"[a-z][a-z0-9_-]*", s)`. -/
def findWords (s : String) : List String := findWordsAux s.data.length s.data

/-- Fuel-indexed list of distinct elements in first-seen order (the key
order of a Python `Counter` built by insertion). -/
def firstSeenAux : Nat → List String → List String
  | 0, _ => []
  | _ + 1, [] => []
  | fuel + 1, x :: xs => x :: firstSeenAux fuel (xs.filter (· ≠ x))

/-- Distinct elements of `l` in first-seen order. -/
def firstSeen (l : List String) : List String := firstSeenAux l.length l

/-- `Counter(ws).most_common(n)` keys: distinct words sorted by descending
frequency, ties kept in first-seen order (insertion sort is stable),
truncated to `n`. -/
def mostCommon (ws : List String) (n : Nat) : List String :=
  ((firstSeen ws).insertionSort (fun a b => ws.count b ≤ ws.count a)).take n

/-- The frequency-based fallback branch of `extract_keywords`. -/
def fallback_keywords (text : String) (max_keywords : Nat) : List String :=
  let words := (findWords (pyLower text)).filter
    (fun w => decide (w ∉ STOPWORDS) && decide (3 ≤ w.length))
  mostCommon words max_keywords

/-- `extract_keywords(text, max_keywords)`.

The optional YAKE engine is an input: `engine = none` models YAKE not
installed (`ImportError`); `engine = some f` with `f text = none` models
the extractor raising (the `except Exception` branch); `f text = some kws`
models the keyphrase list it returns (relevance order, the `n=2`
configuration allows unigram and bigram phrases). -/
def extract_keywords (engine : Option (String → Option (List String)))
    (text : String) (max_keywords : Nat) : List String :=
  if (pyStrip text).length < 20 then []
  else
    match engine with
    | some f =>
      match f text with
      | some kws => kws.take max_keywords
      | none => fallback_keywords text max_keywords
    | none => fallback_keywords text max_keywords

/-- `keywords_to_query(keywords)`: space-joined concatenation. -/
def keywords_to_query (keywords : List String) : String :=
  ⟨joinCh ' ' (keywords.map String.data)⟩

/-! ## Dedup Store (`memory_injection.py`, `prompt_context.py`)

The /tmp files the store uses are modelled as an association list from path
to contents, plus two failure flags: `readFail` models `read` raising
`PermissionError`/`OSError`, `writeFail` the same for `write`.  `exists`
checks never raise. -/

structure FS where
  files : List (String × String)
  readFail : Bool
  writeFail : Bool
deriving DecidableEq, Repr

/-- Contents of the file at `p`, `none` if absent. -/
def lookupFile (fs : FS) (p : String) : Option String := fs.files.lookup p

/-- `os.path.exists(p)` / `Path(p).exists()`. -/
def FS.pathExists (fs : FS) (p : String) : Bool := (lookupFile fs p).isSome

/-- Update-or-insert of one file. -/
def setFile : List (String × String) → String → String → List (String × String)
  | [], p, c => [(p, c)]
  | (q, d) :: rest, p, c =>
    if q = p then (p, c) :: rest else (q, d) :: setFile rest p c

/-- `read_text()` / `open(p).read()`: `none` when the read raises. -/
def FS.read (fs : FS) (p : String) : Option String :=
  if fs.readFail then none else lookupFile fs p

/-- `write_text(c)` / `open(p, "w").write(c)`: `none` when the write
raises, otherwise the updated filesystem. -/
def FS.write (fs : FS) (p c : String) : Option FS :=
  if fs.writeFail then none else some ⟨setFile fs.files p c, fs.readFail, fs.writeFail⟩

/-- `sanitize_session_id` (identical in `memory_injection.py` and
`prompt_context.py`): replace `/` and `\` by `-`. -/
def sanitize_session_id (session_id : String) : String :=
  pyReplace (pyReplace session_id "/" "-") "\\" "-"

/-- `get_hash_path` of `memory_injection.py`. -/
def get_hash_path (session_id : String) : String :=
  "/tmp/" ++ (sanitize_session_id session_id ++ "_memory_hash")

/-- `get_shown_path` (shared file name in both drivers). -/
def get_shown_path (session_id : String) : String :=
  "/tmp/" ++ (sanitize_session_id session_id ++ "_shown_memories")

/-- `should_skip_query` of `memory_injection.py`.  `hash` is the
`hashlib.md5(·.encode()).hexdigest()[:16]` fingerprint, an external
stdlib function supplied as a deterministic oracle.  Returns the skip
decision and the filesystem afterwards; any exception inside the `try`
yields `False` with the state reached so far, exactly like the source. -/
def should_skip_query (hash : String → String) (fs : FS)
    (session_id thinking : String) : Bool × FS :=
  if thinking = "" then (true, fs)
  else
    let current_hash := hash thinking
    let hash_path := get_hash_path session_id
    if fs.pathExists hash_path then
      match fs.read hash_path with
      | none => (false, fs)
      | some last_hash =>
        if pyStrip last_hash = current_hash then (true, fs)
        else
          match fs.write hash_path current_hash with
          | none => (false, fs)
          | some fs2 => (false, fs2)
    else
      match fs.write hash_path current_hash with
      | none => (false, fs)
      | some fs2 => (false, fs2)

/-- `get_shown_memories` of `memory_injection.py`.  The Python `set` of
lines is modelled as the deduplicated line list (membership-faithful). -/
def get_shown_memories (fs : FS) (session_id : String) : List String :=
  let shown_path := get_shown_path session_id
  if fs.pathExists shown_path then
    match fs.read shown_path with
    | none => []
    | some s => (splitNL (pyStrip s)).dedup
  else []

/-- `add_shown_memories` of `memory_injection.py`: read-union-write with
no guard on the session identifier.  The written file is the newline join
of the union; Python iterates its set in unspecified order, the embedding
uses the canonical existing-then-new order (all proved properties are
order-independent). -/
def add_shown_memories (fs : FS) (session_id : String)
    (doc_ids : List String) : FS :=
  let shown_path := get_shown_path session_id
  let existing := get_shown_memories fs session_id
  let merged := (existing ++ doc_ids).dedup
  match fs.write shown_path (joinNL merged) with
  | none => fs
  | some fs2 => fs2

/-- `add_shown_memories` of `prompt_context.py`: same file, but guarded by
`if not session_id or session_id == "unknown"`, and an empty existing file
is parsed as the empty set (the `if content:` test). -/
def pc_add_shown_memories (fs : FS) (session_id : String)
    (doc_ids : List String) : FS :=
  if session_id = "" || session_id = "unknown" then fs
  else
    let path := get_shown_path session_id
    if fs.pathExists path then
      match fs.read path with
      | none => fs
      | some raw =>
        let content := pyStrip raw
        let existing := if content = "" then [] else (splitNL content).dedup
        let merged := (existing ++ doc_ids).dedup
        match fs.write path (joinNL merged) with
        | none => fs
        | some fs2 => fs2
    else
      let merged := doc_ids.dedup
      match fs.write path (joinNL merged) with
      | none => fs
      | some fs2 => fs2

/-- Sequential `addShown` calls (the `memory_injection.py` store). -/
def runAdds (fs : FS) (session_id : String) : List (List String) → FS
  | [] => fs
  | b :: bs => runAdds (add_shown_memories fs session_id b) session_id bs

/-! ## Retrieval Client -/

/-- Outcome of one `subprocess.run` call as classified by the call site's
except clause: the call raised `TimeoutExpired`, raised
`FileNotFoundError` (missing binary), or completed with an exit status and
captured stdout.  OS errors that a call site's except clause does not
catch are modelled at the driver layer by `SubprocOS`. -/
inductive Subproc where
  | timeout : Subproc
  | fileNotFound : Subproc
  | completed : Int → String → Subproc
deriving DecidableEq, Repr

/-- Outcome of one guarded subprocess call including the OS errors its
except clause does not catch: `runs res` is an outcome the handler
classifies, `osError` an `OSError` outside the clause — e.g.
`PermissionError` for the search, status, availability and content-fetch
calls, whose handlers list only `TimeoutExpired`, `JSONDecodeError` and/or
`FileNotFoundError`; for the transcript `tail` call, whose handler also
catches `PermissionError`, an `OSError` beyond those.  Such an error
propagates out of the component and crashes the driver. -/
inductive SubprocOS where
  | runs : Subproc → SubprocOS
  | osError : SubprocOS
deriving DecidableEq, Repr

/-- Outcome of the unguarded
`subprocess.run(["which", "qmd"], capture_output=True)` of
`memory_injection.main` (line 230): no timeout parameter and no
try/except, so the call either completes or raises an OS error (`which`
itself missing from the PATH, permissions) that nothing catches. -/
inductive WhichOutcome where
  | completed : Int → String → WhichOutcome
  | raisesOSError : WhichOutcome
deriving DecidableEq, Repr

/-- Result of embedded Python code that can raise an exception not caught
locally: `ok` carries the normal value, `raised` models the exception
propagating to the caller (for a driver: a traceback and a non-zero
interpreter exit). -/
inductive PyResult (α : Type) where
  | ok : α → PyResult α
  | raised : PyResult α
deriving DecidableEq, Repr

/-- One retrieved candidate record (spec §3): the optional string fields
the formatters read via `dict.get`.  A key mapped to the empty string is
`some ""`. -/
structure Mem where
  id : Option String
  title : Option String
  path : Option String
  file : Option String
  snippet : Option String
  content : Option String
deriving DecidableEq, Repr

/-- One element of a successfully parsed JSON array: a JSON object decoded
to a candidate record, or a non-object element (number, string, nested
array, ...), which has no `.get` method — every `dict.get` access on it
raises `AttributeError`.  `truthy` records the element's Python truth
value (`1` is truthy, `0`/`""`/`[]` are not), tested by `if not result` in
`fork_suggest_hook.main` before any `.get`. -/
inductive JItem where
  | obj : Mem → JItem
  | nonobj : Bool → JItem
deriving DecidableEq, Repr

/-- Shape of a successful `json.loads` of the search stdout: a JSON list —
whose elements need not be objects — or any non-list JSON value. -/
inductive JsonShape where
  | list : List JItem → JsonShape
  | nonlist : JsonShape
deriving Repr

/-- The post-subprocess normalization shared verbatim by
`memory_injection.query_qmd` and `prompt_context.query_qmd`: non-zero
exit, empty stdout, the `"No results found."` sentinel, unparsable JSON
(`parse _ = none` models `JSONDecodeError`) and non-list JSON all
normalize to the empty list; `timeout`/`fileNotFound` are the caught
exceptions.  A parsed list is returned verbatim (`isinstance(results,
list)` checks the list, not its elements), so the result may contain
non-object items. -/
def query_qmd_run (parse : String → Option JsonShape) (res : Subproc) : List JItem :=
  match res with
  | .timeout => []
  | .fileNotFound => []
  | .completed returncode out =>
    if returncode ≠ 0 then []
    else
      let stdout := pyStrip out
      if stdout = "" || stdout = "No results found." then []
      else
        match parse stdout with
        | none => []
        | some (.list results) => results
        | some .nonlist => []

/-- The same normalization in `fork_suggest_hook.query_qmd`, which returns
only the first result (or nothing); the first result is the raw parsed
item and may be a non-object. -/
def fs_query_qmd_run (parse : String → Option JsonShape) (res : Subproc) :
    Option JItem :=
  match res with
  | .timeout => none
  | .fileNotFound => none
  | .completed returncode out =>
    if returncode ≠ 0 then none
    else
      let stdout := pyStrip out
      if stdout = "" || stdout = "No results found." then none
      else
        match parse stdout with
        | none => none
        | some (.list results) => results.head?
        | some .nonlist => none

/-- Query construction in `memory_injection.query_qmd`:
`keywords_to_query(keywords) if keywords else thinking[:200]`. -/
def mi_build_query (engine : Option (String → Option (List String)))
    (thinking : String) : String :=
  let keywords := extract_keywords engine thinking 8
  if keywords ≠ [] then keywords_to_query keywords else pyTake 200 thinking

/-- Query construction in `prompt_context.query_qmd`:
`keywords_to_query(keywords) if keywords else prompt[:200]`. -/
def pc_build_query (engine : Option (String → Option (List String)))
    (prompt : String) : String :=
  let keywords := extract_keywords engine prompt 6
  if keywords ≠ [] then keywords_to_query keywords else pyTake 200 prompt

/-- Query construction in `fork_suggest_hook.query_qmd`:
`keywords_to_query(keywords) if keywords else prompt` — note the fallback
is the full raw prompt, with no character cap. -/
def fs_build_query (engine : Option (String → Option (List String)))
    (prompt : String) : String :=
  let keywords := extract_keywords engine prompt 6
  if keywords ≠ [] then keywords_to_query keywords else prompt

/-- `fetch_full_content` of `prompt_context.py` (`qmd get` subprocess):
non-zero exit, blank stdout, timeout and missing binary all yield `""`. -/
def fetch_full_content (run : String → Subproc) (file_path : String) : String :=
  match run file_path with
  | .timeout => ""
  | .fileNotFound => ""
  | .completed returncode out =>
    if returncode = 0 && pyStrip out ≠ "" then pyStrip out else ""

/-! ## Context Formatters -/

/-- `MAX_RESULTS` (same value in `memory_injection.py` and
`prompt_context.py`). -/
def MAX_RESULTS : Nat := 3

/-- `mem.get("id", mem.get("path", ""))`. -/
def mem_doc_id (mem : Mem) : String := mem.id.getD (mem.path.getD "")

/-- The `for mem in memories` loop of `memory_injection.format_context`:
accumulates rendered lines and the newly surfaced ids, stopping after
`MAX_RESULTS` kept entries. -/
def fc_loop : List Mem → List String → Nat → List String → List String →
    List String × List String × Nat
  | [], _, count, lines, ids => (lines, ids, count)
  | mem :: rest, shown, count, lines, ids =>
    if MAX_RESULTS ≤ count then (lines, ids, count)
    else
      let doc_id := mem_doc_id mem
      if doc_id ∈ shown then fc_loop rest shown count lines ids
      else
        let title := mem.title.getD (mem.path.getD "Unknown")
        let snippet := pyTake 200 (mem.snippet.getD (mem.content.getD ""))
        let lines1 := lines ++ ["\n• " ++ title]
        let lines2 :=
          if snippet ≠ "" then
            lines1 ++ ["  " ++ pyStrip (pyReplace snippet "\n" " ") ++ "..."]
          else lines1
        fc_loop rest shown (count + 1) lines2 (ids ++ [doc_id])

/-- `format_context(memories, shown)` of `memory_injection.py`.  Returns
`(context_str, new_doc_ids)`. -/
def format_context (memories : List Mem) (shown : List String) :
    String × List String :=
  if memories = [] then ("", [])
  else
    let r := fc_loop memories shown 0 ["📚 RELEVANT PAST SESSIONS:"] []
    if r.2.2 = 0 then ("", [])
    else
      (joinNL (r.1 ++
         ["\n\nTo fork a session, run: claude --resume <session-id> --fork-session"]),
       r.2.1)

/-- `os.path.basename` (POSIX): the component after the last `/`. -/
def os_basename (p : String) : String := ((splitStr '/' p).getLast?).getD ""

/-- `extract_session_id` of `fork_suggest_hook.py`:
`os.path.basename(file_path).replace(".md", "")`. -/
def extract_session_id (file_path : String) : String :=
  pyReplace (os_basename file_path) ".md" ""

/-- `extract_session_id_from_path` of `prompt_context.py` (same body). -/
def extract_session_id_from_path (file_path : String) : String :=
  pyReplace (os_basename file_path) ".md" ""

/-- `format_suggestion` of `fork_suggest_hook.py`. -/
def format_suggestion (title session_id : String) : String :=
  "🔍 SIMILAR PAST SESSION FOUND:\n\n\"" ++ title ++
  "\"\n\nTo fork and continue from this session, run in a NEW terminal:\n\n  claude --resume "
  ++ session_id ++ " --fork-session\n\n(Cannot fork mid-session - must start fresh with the fork flag)"

/-- The `for mem in memories[1:MAX_RESULTS + 1]` loop of
`prompt_context.format_output` (snippet entries). -/
def fo_rest_loop : List Mem → List String → List String →
    List String × List String
  | [], context_parts, doc_ids => (context_parts, doc_ids)
  | mem :: rest, context_parts, doc_ids =>
    let mem_file := mem.file.getD (mem.path.getD "")
    let mem_title := mem.title.getD mem_file
    let snippet := pyReplace (pyTake 200 (mem.snippet.getD "")) "\n" " "
    let doc_id := mem.id.getD mem_file
    if mem_title = "" then fo_rest_loop rest context_parts doc_ids
    else
      let cp1 := context_parts ++ ["\n• " ++ mem_title, "  File: " ++ mem_file]
      let cp2 := if snippet ≠ "" then cp1 ++ ["  " ++ snippet ++ "..."] else cp1
      fo_rest_loop rest cp2 (doc_ids ++ [doc_id])

/-- The first-candidate block of `format_output`: fork suggestion plus full
or shallow context, emitted only when both title and file path are truthy. -/
def fo_first (run : String → Subproc) (first : Mem) :
    List String × List String × List String :=
  let title := first.title.getD (first.path.getD "")
  let file_path := first.file.getD (first.path.getD "")
  let doc_id := first.id.getD file_path
  if title ≠ "" && file_path ≠ "" then
    let session_id := extract_session_id_from_path file_path
    let display_title := if 50 < title.length then pyTake 50 title ++ "..." else title
    let fork_msg := "🔍 Related: \"" ++ display_title ++
      "\"\n  claude --resume " ++ session_id ++ " --fork-session"
    let full_content := fetch_full_content run file_path
    let block :=
      if full_content ≠ "" then
        "📖 MOST RELEVANT PAST SESSION:\n\"" ++ title ++ "\"\nSession ID: " ++
        session_id ++ "\nTo fork: claude --resume " ++ session_id ++
        " --fork-session\n\n--- SESSION CONTENT ---\n" ++ full_content ++
        "\n--- END SESSION ---"
      else
        "SIMILAR PAST SESSION FOUND:\n\"" ++ title ++ "\"\nSession ID: " ++
        session_id ++ "\nTo fork: claude --resume " ++ session_id ++
        " --fork-session"
    ([fork_msg], [block], [doc_id])
  else ([], [], [])

/-- `format_output(memories)` of `prompt_context.py`.  Returns
`(user_message, claude_context, doc_ids)`; `run` is the `qmd get`
subprocess used by `fetch_full_content`.  Note the function receives no
shown set. -/
def format_output (run : String → Subproc) (memories : List Mem) :
    String × String × List String :=
  match memories with
  | [] => ("", "", [])
  | first :: restAll =>
    let f := fo_first run first
    let r :=
      if 1 < (first :: restAll).length then
        fo_rest_loop (restAll.take MAX_RESULTS)
          (f.2.1 ++ ["\n📚 OTHER RELEVANT SESSIONS (snippets):"]) f.2.2
      else (f.2.1, f.2.2)
    (joinNL f.1, joinNL r.1, r.2)

/-- `filter_current_session` of `prompt_context.py`: drop candidates whose
file/path contains the current session id (substring test); no-op when the
current id is falsy. -/
def filter_current_session (memories : List Mem) (current_session_id : String) :
    List Mem :=
  if current_session_id = "" then memories
  else memories.filter
    (fun m => ¬ pyIn current_session_id (m.file.getD (m.path.getD "")))

/-! ## Driver-layer formatters over raw parsed items

The drivers hand the raw parsed search output to the formatters, so the
items reaching them need not be objects.  The `..._px` functions below are
the same source lines as their `Mem`-typed counterparts, embedded over
`JItem` with a `raised` outcome at each Python `.get` on a non-object
(`AttributeError`, caught by nothing) and at each subprocess OS error
outside the local except clause. -/

/-- `fc_loop` over raw items: the first `.get` of the loop body
(`mem.get("id", ...)`, memory_injection.py line 194) raises on a
non-object item; items beyond the `count >= MAX_RESULTS` break are never
touched. -/
def fc_loop_px : List JItem → List String → Nat → List String → List String →
    PyResult (List String × List String × Nat)
  | [], _, count, lines, ids => .ok (lines, ids, count)
  | item :: rest, shown, count, lines, ids =>
    if MAX_RESULTS ≤ count then .ok (lines, ids, count)
    else
      match item with
      | .nonobj _ => .raised
      | .obj mem =>
        let doc_id := mem_doc_id mem
        if doc_id ∈ shown then fc_loop_px rest shown count lines ids
        else
          let title := mem.title.getD (mem.path.getD "Unknown")
          let snippet := pyTake 200 (mem.snippet.getD (mem.content.getD ""))
          let lines1 := lines ++ ["\n• " ++ title]
          let lines2 :=
            if snippet ≠ "" then
              lines1 ++ ["  " ++ pyStrip (pyReplace snippet "\n" " ") ++ "..."]
            else lines1
          fc_loop_px rest shown (count + 1) lines2 (ids ++ [doc_id])

/-- `format_context` over raw items. -/
def format_context_px (memories : List JItem) (shown : List String) :
    PyResult (String × List String) :=
  if memories = [] then .ok ("", [])
  else
    match fc_loop_px memories shown 0 ["📚 RELEVANT PAST SESSIONS:"] [] with
    | .raised => .raised
    | .ok r =>
      if r.2.2 = 0 then .ok ("", [])
      else
        .ok (joinNL (r.1 ++
          ["\n\nTo fork a session, run: claude --resume <session-id> --fork-session"]),
         r.2.1)

/-- `fetch_full_content` over the full call outcome: its except clause
lists only `TimeoutExpired` and `FileNotFoundError`, so an OS error
outside it (e.g. `PermissionError`) propagates. -/
def fetch_full_content_os (run : String → SubprocOS) (file_path : String) :
    PyResult String :=
  match run file_path with
  | .osError => .raised
  | .runs .timeout => .ok ""
  | .runs .fileNotFound => .ok ""
  | .runs (.completed returncode out) =>
    .ok (if returncode = 0 && pyStrip out ≠ "" then pyStrip out else "")

/-- The first-candidate block of `format_output` over a raw item:
`first.get("title", ...)` (prompt_context.py line 120) raises on a
non-object, and the content fetch can propagate an OS error. -/
def fo_first_px (run : String → SubprocOS) : JItem →
    PyResult (List String × List String × List String)
  | .nonobj _ => .raised
  | .obj first =>
    let title := first.title.getD (first.path.getD "")
    let file_path := first.file.getD (first.path.getD "")
    let doc_id := first.id.getD file_path
    if title ≠ "" && file_path ≠ "" then
      let session_id := extract_session_id_from_path file_path
      let display_title := if 50 < title.length then pyTake 50 title ++ "..." else title
      let fork_msg := "🔍 Related: \"" ++ display_title ++
        "\"\n  claude --resume " ++ session_id ++ " --fork-session"
      match fetch_full_content_os run file_path with
      | .raised => .raised
      | .ok full_content =>
        let block :=
          if full_content ≠ "" then
            "📖 MOST RELEVANT PAST SESSION:\n\"" ++ title ++ "\"\nSession ID: " ++
            session_id ++ "\nTo fork: claude --resume " ++ session_id ++
            " --fork-session\n\n--- SESSION CONTENT ---\n" ++ full_content ++
            "\n--- END SESSION ---"
          else
            "SIMILAR PAST SESSION FOUND:\n\"" ++ title ++ "\"\nSession ID: " ++
            session_id ++ "\nTo fork: claude --resume " ++ session_id ++
            " --fork-session"
        .ok ([fork_msg], [block], [doc_id])
    else .ok ([], [], [])

/-- The snippet loop of `format_output` over raw items:
`mem.get("file", ...)` (prompt_context.py line 153) raises on a non-object
item within the slice. -/
def fo_rest_loop_px : List JItem → List String → List String →
    PyResult (List String × List String)
  | [], context_parts, doc_ids => .ok (context_parts, doc_ids)
  | .nonobj _ :: _, _, _ => .raised
  | .obj mem :: rest, context_parts, doc_ids =>
    let mem_file := mem.file.getD (mem.path.getD "")
    let mem_title := mem.title.getD mem_file
    let snippet := pyReplace (pyTake 200 (mem.snippet.getD "")) "\n" " "
    let doc_id := mem.id.getD mem_file
    if mem_title = "" then fo_rest_loop_px rest context_parts doc_ids
    else
      let cp1 := context_parts ++ ["\n• " ++ mem_title, "  File: " ++ mem_file]
      let cp2 := if snippet ≠ "" then cp1 ++ ["  " ++ snippet ++ "..."] else cp1
      fo_rest_loop_px rest cp2 (doc_ids ++ [doc_id])

/-- `format_output` over raw items and the full fetch outcome. -/
def format_output_px (run : String → SubprocOS) (memories : List JItem) :
    PyResult (String × String × List String) :=
  match memories with
  | [] => .ok ("", "", [])
  | first :: restAll =>
    match fo_first_px run first with
    | .raised => .raised
    | .ok f =>
      match (if 1 < (first :: restAll).length then
          fo_rest_loop_px (restAll.take MAX_RESULTS)
            (f.2.1 ++ ["\n📚 OTHER RELEVANT SESSIONS (snippets):"]) f.2.2
        else .ok (f.2.1, f.2.2)) with
      | .raised => .raised
      | .ok r => .ok (joinNL f.1, joinNL r.1, r.2)

/-- The list comprehension of `filter_current_session` over raw items:
`m.get("file", ...)` (prompt_context.py line 174) raises on any non-object
item; the `if not current_session_id` guard returns the list untouched. -/
def fcs_loop (current_session_id : String) : List JItem → PyResult (List JItem)
  | [] => .ok []
  | .nonobj _ :: _ => .raised
  | .obj m :: rest =>
    match fcs_loop current_session_id rest with
    | .raised => .raised
    | .ok tl =>
      .ok (if ¬ pyIn current_session_id (m.file.getD (m.path.getD "")) then
        .obj m :: tl else tl)

/-- `filter_current_session` over raw items. -/
def filter_current_session_px (memories : List JItem)
    (current_session_id : String) : PyResult (List JItem) :=
  if current_session_id = "" then .ok memories
  else fcs_loop current_session_id memories

/-! ## Transcript scan (`memory_injection.extract_last_thinking`) -/

/-- One content block of an assistant transcript entry
(`block.get("type")`, `block.get("thinking", "")`). -/
structure Block where
  type : String
  thinking : String
deriving Repr

/-- One parsed transcript JSONL entry: its `type` field and the
`message.content` block list (absent fields default like `dict.get`). -/
structure Entry where
  type : String
  content : List Block
deriving Repr

/-- `for block in reversed(content): if block.get("type") == "thinking"`
(applied to the already reversed list). -/
def find_thinking_block : List Block → Option String
  | [] => none
  | b :: rest =>
    if b.type = "thinking" then some b.thinking else find_thinking_block rest

/-- Result of `json.loads` on one transcript line: a parse failure
(`JSONDecodeError`, caught by the inner except and skipped), a JSON object
decoded to an entry, or a parsed non-object line, on which `entry.get`
(memory_injection.py line 68) raises `AttributeError` — the inner except
names only `JSONDecodeError` and the outer one only subprocess/file
errors, so it propagates.  (Deeper malformed shapes — a non-dict
`message`, non-list `content`, non-dict blocks — crash the same way; the
embedding keeps those fields well-typed and exposes the top-level
case.) -/
inductive LineParse where
  | failure : LineParse
  | entry : Entry → LineParse
  | nonobj : LineParse

/-- The reverse line scan of `extract_last_thinking` (applied to the
already reversed line list): blank lines and `json.loads` failures are
skipped, non-assistant entries and assistant entries without a thinking
block fall through to older lines, and a parsed non-object line raises. -/
def scan_lines (parseLine : String → LineParse) : List String → PyResult String
  | [] => .ok ""
  | line :: rest =>
    if pyStrip line = "" then scan_lines parseLine rest
    else
      match parseLine line with
      | .failure => scan_lines parseLine rest
      | .nonobj => .raised
      | .entry entry =>
        if entry.type = "assistant" then
          match find_thinking_block entry.content.reverse with
          | some thinking => .ok (pyTake 1500 thinking)
          | none => scan_lines parseLine rest
        else scan_lines parseLine rest

/-- `extract_last_thinking(transcript_path)`: `tailRes` is the observed
`tail -n 100` call outcome, `parseLine` the `json.loads` oracle for one
JSONL line.  The outer except catches `TimeoutExpired`,
`FileNotFoundError` and `PermissionError` — yielding `""` — but not the
`AttributeError` of the line scan nor OS errors beyond those three. -/
def extract_last_thinking (parseLine : String → LineParse)
    (tailRes : SubprocOS) : PyResult String :=
  match tailRes with
  | .osError => .raised
  | .runs .timeout => .ok ""
  | .runs .fileNotFound => .ok ""
  | .runs (.completed returncode out) =>
    if returncode ≠ 0 then .ok ""
    else scan_lines parseLine (splitNL (pyStrip out)).reverse

/-! ## Invocation Drivers

Each driver `main` is embedded as a function from an environment record —
the parsed stdin event (`none` = `json.JSONDecodeError`), the relevant
environment variables, and the observed outcome of every external call it
can make — to a `PyResult` of `(exit code, emitted output, final
filesystem)`: the `sys.exit(0)` paths are `ok` with code 0, and `raised`
is an uncaught exception escaping `main` (traceback, non-zero interpreter
exit).  Stdin is a mapping per spec §6; the structured stdout payload is
kept as the context/message strings rather than re-serialized JSON. -/

/-- `CONTEXT_TOOLS` of `memory_injection.py`. -/
def CONTEXT_TOOLS : List String := ["Read", "Edit", "Write", "Glob", "Grep"]

/-- Environment of one `memory_injection.main` invocation. -/
structure MiEnv where
  /-- The `tool_name` field of the parsed stdin event
  (`input_data.get("tool_name", "")`); `none` models unparsable JSON. -/
  stdin : Option String
  /-- Outcome of the unguarded `which qmd` availability call. -/
  whichRes : WhichOutcome
  /-- `CLAUDE_SESSION_ID`, `none` when unset. -/
  sessionVar : Option String
  /-- `CLAUDE_TRANSCRIPT_PATH`, `none` when unset. -/
  transcriptVar : Option String
  /-- Outcome of the `tail -n 100` call. -/
  tailRes : SubprocOS
  /-- `json.loads` oracle for one transcript line. -/
  parseLine : String → LineParse
  /-- The md5 fingerprint oracle. -/
  hash : String → String
  /-- Outcome of `qmd search` as a function of the query. -/
  searchRun : String → SubprocOS
  /-- `json.loads` oracle for the search stdout. -/
  parseSearch : String → Option JsonShape
  /-- State of the /tmp dedup files. -/
  fs : FS
  /-- The optional YAKE engine. -/
  engine : Option (String → Option (List String))

/-- `get_session_id`: `os.environ.get("CLAUDE_SESSION_ID", "unknown")`. -/
def get_session_id (sessionVar : Option String) : String :=
  sessionVar.getD "unknown"

/-- `memory_injection.main`: `ok (exit code, additionalContext output if
any, final filesystem)`, or `raised` when an uncaught exception escapes
(the unguarded `which` call raising, a parsed non-object transcript line,
an OS error outside the search call's except clause, or a non-object
search result reaching `format_context`). -/
def mi_main (env : MiEnv) : PyResult (Nat × Option String × FS) :=
  match env.stdin with
  | none => .ok (0, none, env.fs)
  | some tool_name =>
    if tool_name ∉ CONTEXT_TOOLS then .ok (0, none, env.fs)
    else
      match env.whichRes with
      | .raisesOSError => .raised
      | .completed which_rc _ =>
        if which_rc ≠ 0 then .ok (0, none, env.fs)
        else
          let session_id := get_session_id env.sessionVar
          match env.transcriptVar with
          | none => .ok (0, none, env.fs)
          | some transcript_path =>
            if transcript_path = "" then .ok (0, none, env.fs)
            else
              match extract_last_thinking env.parseLine env.tailRes with
              | .raised => .raised
              | .ok thinking =>
                if thinking = "" then .ok (0, none, env.fs)
                else
                  let skip := should_skip_query env.hash env.fs session_id thinking
                  if skip.1 then .ok (0, none, skip.2)
                  else
                    match env.searchRun (mi_build_query env.engine thinking) with
                    | .osError => .raised
                    | .runs sres =>
                      let memories := query_qmd_run env.parseSearch sres
                      if memories = [] then .ok (0, none, skip.2)
                      else
                        let shown := get_shown_memories skip.2 session_id
                        match format_context_px memories shown with
                        | .raised => .raised
                        | .ok fc =>
                          if fc.1 ≠ "" && fc.2 ≠ [] then
                            .ok (0, some fc.1,
                              add_shown_memories skip.2 session_id fc.2)
                          else .ok (0, none, skip.2)

/-- `check_qmd_available` of `fork_suggest_hook.py`. -/
def check_qmd_available (res : Subproc) : Bool :=
  match res with
  | .completed returncode _ => returncode = 0
  | _ => false

/-- `check_collection_exists` of `fork_suggest_hook.py` (note the exit
status of `qmd status` is ignored by the source). -/
def check_collection_exists (res : Subproc) : Bool :=
  match res with
  | .completed _ out => pyIn "claude-sessions" out
  | _ => false

/-- Environment of one `fork_suggest_hook.main` invocation. -/
structure FsEnv where
  /-- Parsed stdin `prompt` field; `none` models unparsable JSON. -/
  stdin : Option String
  /-- Outcome of the guarded `which qmd` call (its except clause catches
  `TimeoutExpired` and `FileNotFoundError` only). -/
  whichRes : SubprocOS
  /-- Outcome of the `qmd status` call (same except clause). -/
  statusRes : SubprocOS
  /-- Outcome of `qmd search` as a function of the query. -/
  searchRun : String → SubprocOS
  /-- `json.loads` oracle for the search stdout. -/
  parseSearch : String → Option JsonShape
  /-- The optional YAKE engine. -/
  engine : Option (String → Option (List String))

/-- `fork_suggest_hook.main`: `ok (exit code, printed output)`, or
`raised` for an OS error outside one of the except clauses or a truthy
non-object first result reaching `result.get("title")` (line 127; a falsy
one exits first at `if not result`).  A first result decoded from an empty
JSON object is falsy in Python and exits at that same check; its embedded
image has every field absent, which the title guard then rejects with the
same exit code. -/
def fs_main (env : FsEnv) : PyResult (Nat × Option String) :=
  match env.stdin with
  | none => .ok (0, none)
  | some prompt =>
    if prompt.length < 20 then .ok (0, none)
    else
      match env.whichRes with
      | .osError => .raised
      | .runs wres =>
        if ¬ check_qmd_available wres then .ok (0, none)
        else
          match env.statusRes with
          | .osError => .raised
          | .runs stres =>
            if ¬ check_collection_exists stres then .ok (0, none)
            else
              match env.searchRun (fs_build_query env.engine prompt) with
              | .osError => .raised
              | .runs sres =>
                match fs_query_qmd_run env.parseSearch sres with
                | none => .ok (0, none)
                | some (.nonobj truthy) =>
                  if truthy then .raised else .ok (0, none)
                | some (.obj result) =>
                  let title := pyTruthyOr result.title (pyTruthyOr result.file "")
                  let file_path := result.file.getD ""
                  if title = "" || file_path = "" then .ok (0, none)
                  else
                    let session_id := extract_session_id file_path
                    if session_id = "" then .ok (0, none)
                    else .ok (0, some (format_suggestion title session_id))

/-- Environment of one `prompt_context.main` invocation. -/
structure PcEnv where
  /-- Parsed stdin `prompt` field; `none` models unparsable JSON. -/
  stdin : Option String
  /-- Is `qmd` on the PATH?  `shutil.which` is a pure-Python PATH scan and
  raises nothing. -/
  qmdOnPath : Bool
  /-- `CLAUDE_SESSION_ID`, `none` when unset. -/
  sessionVar : Option String
  /-- Outcome of `qmd search` as a function of the query. -/
  searchRun : String → SubprocOS
  /-- `json.loads` oracle for the search stdout. -/
  parseSearch : String → Option JsonShape
  /-- Outcome of `qmd get` as a function of the file path. -/
  fetchRun : String → SubprocOS
  /-- State of the /tmp dedup files. -/
  fs : FS
  /-- The optional YAKE engine. -/
  engine : Option (String → Option (List String))

/-- `prompt_context.query_qmd` (the `shutil.which` guard is inside): an OS
error outside the except clause propagates. -/
def pc_query_qmd (env : PcEnv) (prompt : String) : PyResult (List JItem) :=
  if ¬ env.qmdOnPath then .ok []
  else
    match env.searchRun (pc_build_query env.engine prompt) with
    | .osError => .raised
    | .runs sres => .ok (query_qmd_run env.parseSearch sres)

/-- `prompt_context.main`: `ok (exit code, (systemMessage,
additionalContext) if printed, final filesystem)`, or `raised` for an OS
error outside an except clause or a non-object item reaching
`filter_current_session` or `format_output`. -/
def pc_main (env : PcEnv) :
    PyResult (Nat × Option (Option String × Option String) × FS) :=
  match env.stdin with
  | none => .ok (0, none, env.fs)
  | some prompt =>
    if prompt.length < 20 then .ok (0, none, env.fs)
    else
      match pc_query_qmd env prompt with
      | .raised => .raised
      | .ok memories0 =>
        if memories0 = [] then .ok (0, none, env.fs)
        else
          let current_session_id := env.sessionVar.getD ""
          match filter_current_session_px memories0 current_session_id with
          | .raised => .raised
          | .ok memories =>
            if memories = [] then .ok (0, none, env.fs)
            else
              match format_output_px env.fetchRun memories with
              | .raised => .raised
              | .ok fo =>
                if fo.2.2 ≠ [] then
                  let fs2 := pc_add_shown_memories env.fs
                    (env.sessionVar.getD "") fo.2.2
                  let user := if fo.1 ≠ "" then some fo.1 else none
                  let ctx := if fo.2.1 ≠ "" then some fo.2.1 else none
                  if user.isSome || ctx.isSome then .ok (0, some (user, ctx), fs2)
                  else .ok (0, none, fs2)
                else .ok (0, none, env.fs)

/-- The process exit code of a driver outcome: the `sys.exit(0)` paths
carry their code, an uncaught exception makes the interpreter exit 1. -/
def exitCode {α : Type} : PyResult (Nat × α) → Nat
  | .ok r => r.1
  | .raised => 1

/-! ## Shared concrete fixtures -/

/-- A pristine, fully writable dedup store: no files, no failures. -/
def fs0 : FS := ⟨[], false, false⟩

/-! ## Theorems -/

/-- On a list of object items, the driver-layer `format_context` loop
agrees with the record-level one and raises nothing. -/
theorem fc_loop_px_obj :
    ∀ (ms : List Mem) (shown : List String) (count : Nat)
      (lines ids : List String),
      fc_loop_px (ms.map JItem.obj) shown count lines ids =
        .ok (fc_loop ms shown count lines ids) := by
  intro ms
  induction ms with
  | nil => intro shown count lines ids; rfl
  | cons m rest ih =>
    intro shown count lines ids
    show fc_loop_px (JItem.obj m :: rest.map JItem.obj) shown count lines ids = _
    by_cases hc : MAX_RESULTS ≤ count
    · simp [fc_loop_px, fc_loop, hc]
    · by_cases hd : mem_doc_id m ∈ shown
      · simp [fc_loop_px, fc_loop, hc, hd, ih]
      · simp [fc_loop_px, fc_loop, hc, hd, ih]

/-- On a list of object items, the driver-layer `format_context` agrees
with the record-level one and raises nothing. -/
theorem format_context_px_obj (ms : List Mem) (shown : List String) :
    format_context_px (ms.map JItem.obj) shown = .ok (format_context ms shown) := by
  unfold format_context_px format_context
  by_cases h : ms = []
  · subst h; rfl
  · have hne : ms.map JItem.obj ≠ [] := by simpa using h
    rw [if_neg hne, if_neg h, fc_loop_px_obj]
    dsimp only
    split <;> rfl

/-- On outcomes the except clause classifies, the driver-layer content
fetch agrees with the record-level one and raises nothing. -/
theorem fetch_full_content_os_runs (run : String → Subproc) (file_path : String) :
    fetch_full_content_os (fun p => .runs (run p)) file_path =
      .ok (fetch_full_content run file_path) := by
  unfold fetch_full_content_os fetch_full_content
  cases h : run file_path <;> simp [h]

/-- On an object first item, the driver-layer first-candidate block agrees
with the record-level one and raises nothing. -/
theorem fo_first_px_obj (run : String → Subproc) (m : Mem) :
    fo_first_px (fun p => .runs (run p)) (.obj m) = .ok (fo_first run m) := by
  unfold fo_first_px fo_first
  dsimp only
  split
  · rw [fetch_full_content_os_runs]
  · rfl

/-- On object items, the driver-layer snippet loop agrees with the
record-level one and raises nothing. -/
theorem fo_rest_loop_px_obj :
    ∀ (ms : List Mem) (context_parts doc_ids : List String),
      fo_rest_loop_px (ms.map JItem.obj) context_parts doc_ids =
        .ok (fo_rest_loop ms context_parts doc_ids) := by
  intro ms
  induction ms with
  | nil => intro context_parts doc_ids; rfl
  | cons m rest ih =>
    intro context_parts doc_ids
    show fo_rest_loop_px (JItem.obj m :: rest.map JItem.obj)
      context_parts doc_ids = _
    by_cases ht : m.title.getD (m.file.getD (m.path.getD "")) = ""
    · simp [fo_rest_loop_px, fo_rest_loop, ht, ih]
    · simp [fo_rest_loop_px, fo_rest_loop, ht, ih]

/-- On a list of object items, the driver-layer `format_output` agrees
with the record-level one and raises nothing. -/
theorem format_output_px_obj (run : String → Subproc) (ms : List Mem) :
    format_output_px (fun p => .runs (run p)) (ms.map JItem.obj) =
      .ok (format_output run ms) := by
  cases ms with
  | nil => rfl
  | cons first restAll =>
    show format_output_px _ (.obj first :: restAll.map JItem.obj) = _
    unfold format_output_px format_output
    dsimp only
    rw [fo_first_px_obj]
    simp only [List.length_cons, List.length_map]
    by_cases h : 1 < restAll.length + 1
    · rw [if_pos h, if_pos h, ← List.map_take, fo_rest_loop_px_obj]
    · rw [if_neg h, if_neg h]

/-- `json.loads` oracle recognizing the concrete search stdout `[1]`: a
valid JSON list whose single element is the number 1 — truthy, and not an
object. -/
def parseListOne : String → Option JsonShape :=
  fun s => if s = "[1]" then some (.list [.nonobj true]) else none

/-- A parsed transcript line: an assistant entry with one thinking
block. -/
def thinkEntry : LineParse :=
  .entry ⟨"assistant", [⟨"thinking",
    "investigate the login timeout bug in the auth module"⟩]⟩

/-- Pre-tool-use environment with unparsable stdin JSON. -/
def miBadStdinEnv : MiEnv :=
  ⟨none, .completed 0 "", none, none, .runs .timeout, fun _ => .failure,
   fun _ => "", fun _ => .runs .timeout, parseListOne, fs0, none⟩

/-- Pre-tool-use environment where `which qmd` reports qmd absent. -/
def miNoQmdEnv : MiEnv :=
  ⟨some "Read", .completed 1 "", some "s", some "/t",
   .runs (.completed 0 "L1"), fun _ => thinkEntry, fun _ => "deadbeef00000000",
   fun _ => .runs (.completed 0 "[1]"), parseListOne, fs0, none⟩

/-- Pre-tool-use environment whose search call exits 0 with stdout
`[1]`. -/
def miCrashEnv : MiEnv :=
  ⟨some "Read", .completed 0 "/usr/bin/qmd", some "s", some "/t",
   .runs (.completed 0 "L1"), fun _ => thinkEntry, fun _ => "deadbeef00000000",
   fun _ => .runs (.completed 0 "[1]"), parseListOne, fs0, none⟩

/-- Pre-tool-use environment where the unguarded `which` call raises. -/
def miWhichCrashEnv : MiEnv :=
  ⟨some "Read", .raisesOSError, some "s", some "/t",
   .runs (.completed 0 "L1"), fun _ => thinkEntry, fun _ => "deadbeef00000000",
   fun _ => .runs (.completed 0 "[1]"), parseListOne, fs0, none⟩

/-- Fork-suggestion environment whose search call exits 0 with stdout
`[1]`. -/
def fsCrashEnv : FsEnv :=
  ⟨some "investigate the login timeout bug", .runs (.completed 0 ""),
   .runs (.completed 0 "collections: claude-sessions"),
   fun _ => .runs (.completed 0 "[1]"), parseListOne, none⟩

/-- Combined prompt-time environment whose search call exits 0 with stdout
`[1]`. -/
def pcCrashEnv : PcEnv :=
  ⟨some "investigate the login timeout bug", true, none,
   fun _ => .runs (.completed 0 "[1]"), parseListOne,
   fun _ => .runs .timeout, fs0, none⟩

/-- C1 (code-bug evidence): the claim — like the drivers' own docstrings,
"Exit codes: 0: Always" — requires exit code 0 for every triggering event,
and the enumerated degraded inputs do exit 0 (unparsable stdin, absent
search binary); but a `qmd search` stdout of `[1]` — a valid JSON list
whose element is not an object, a shape spec §6 says is "treated as
failure" — crashes all three drivers with an uncaught `AttributeError` at
the first `.get` on the item, and a raising unguarded `which` call crashes
the pre-tool-use driver: the interpreter exits 1, not 0. -/
theorem drivers_crash_on_nonobject_result :
    exitCode (mi_main miBadStdinEnv) = 0 ∧
    exitCode (mi_main miNoQmdEnv) = 0 ∧
    exitCode (mi_main miCrashEnv) = 1 ∧
    exitCode (mi_main miWhichCrashEnv) = 1 ∧
    exitCode (fs_main fsCrashEnv) = 1 ∧
    exitCode (pc_main pcCrashEnv) = 1 := by decide

/-- C5: a Retrieval Client search whose subprocess times out, whose binary
is missing, whose process exits non-zero, whose stdout is unparsable JSON,
or whose stdout is the sentinel `"No results found."` yields the empty
candidate list (list variant) and no candidate (first-result variant): in
each of these five outcomes the source's handlers produce the empty result
without raising anything to the caller.  (OS errors outside the except
clause, which the claim does not enumerate, are modelled at the driver
layer by `SubprocOS`.) -/
theorem retrieval_failures_yield_no_candidates
    (parse : String → Option JsonShape) (res : Subproc)
    (h : res = .timeout ∨ res = .fileNotFound ∨
      (∃ rc out, res = .completed rc out ∧ rc ≠ 0) ∨
      (∃ rc out, res = .completed rc out ∧ parse (pyStrip out) = none) ∨
      (∃ rc out, res = .completed rc out ∧ pyStrip out = "No results found.")) :
    query_qmd_run parse res = [] ∧ fs_query_qmd_run parse res = none := by
  rcases h with h | h | ⟨rc, out, h, hrc⟩ | ⟨rc, out, h, hp⟩ | ⟨rc, out, h, hs⟩ <;>
    subst h
  · exact ⟨rfl, rfl⟩
  · exact ⟨rfl, rfl⟩
  · constructor <;> simp [query_qmd_run, fs_query_qmd_run, hrc]
  · constructor <;>
      · simp only [query_qmd_run, fs_query_qmd_run]
        repeat' first | rfl | split
        all_goals simp_all
  · constructor <;>
      · simp only [query_qmd_run, fs_query_qmd_run]
        repeat' first | rfl | split
        all_goals simp_all

/-- Witness for C5 at a concrete failing call (timeout, unparsable
stdout oracle). -/
theorem retrieval_failures_witness :
    query_qmd_run (fun _ => none) Subproc.timeout = [] ∧
    fs_query_qmd_run (fun _ => none) Subproc.timeout = none :=
  retrieval_failures_yield_no_candidates (fun _ => none) Subproc.timeout (Or.inl rfl)

/-- C2 counterexample: the pre-tool-use driver's `add_shown_memories`
(`memory_injection.py`) has no session-identifier guard — called with the
sentinel `"unknown"` session and a non-empty identifier list on an empty
writable store, it changes the persisted storage, so the claimed no-op
fails in that driver. -/
theorem add_shown_unknown_not_noop :
    add_shown_memories fs0 "unknown" ["doc1"] ≠ fs0 := by decide

/-- C2 amended: only the combined prompt-time driver's `addShown`
(`prompt_context.add_shown_memories`) is a no-op when the session
identifier is absent (empty) or the sentinel `"unknown"`; the pre-tool-use
driver performs the update unconditionally. -/
theorem pc_add_shown_unknown_noop (fs : FS) (session_id : String)
    (doc_ids : List String) (h : session_id = "" ∨ session_id = "unknown") :
    pc_add_shown_memories fs session_id doc_ids = fs := by
  unfold pc_add_shown_memories
  rcases h with h | h <;> subst h <;> simp

/-- Witness for the amended C2 at the sentinel session id. -/
theorem pc_add_shown_unknown_noop_witness :
    pc_add_shown_memories fs0 "unknown" ["doc1"] = fs0 :=
  pc_add_shown_unknown_noop fs0 "unknown" ["doc1"] (Or.inr rfl)

/-- A candidate with both title and path/file present. -/
def memIdA : Mem :=
  ⟨some "a", some "T", some "proj/s1.md", some "proj/s1.md", some "snippet text", none⟩

/-- A candidate whose identifier differs from `memIdA`. -/
def memIdB : Mem :=
  ⟨some "b", some "U", some "proj/s2.md", some "proj/s2.md", none, none⟩

/-- A candidate that has only an identifier: no title, no location. -/
def memOnlyId : Mem := ⟨some "x", none, none, none, none, none⟩

/-- A candidate with a location but no title. -/
def memNoTitle : Mem :=
  ⟨some "y", none, some "proj/s3.md", some "proj/s3.md", none, none⟩

/-- Every identifier the `format_context` loop appends beyond the incoming
accumulator avoids the shown set. -/
theorem fc_loop_ids_mem :
    ∀ (ms : List Mem) (shown : List String) (count : Nat)
      (lines ids : List String) (x : String),
      x ∈ (fc_loop ms shown count lines ids).2.1 → x ∈ ids ∨ x ∉ shown := by
  intro ms
  induction ms with
  | nil =>
    intro shown count lines ids x h
    exact Or.inl h
  | cons m rest ih =>
    intro shown count lines ids x h
    unfold fc_loop at h
    split at h
    · exact Or.inl h
    · dsimp only at h
      split at h
      · exact ih _ _ _ _ _ h
      · rcases ih _ _ _ _ _ h with hx | hx
        · rcases List.mem_append.1 hx with hx | hx
          · exact Or.inl hx
          · rename_i hns _
            rw [List.mem_singleton.1 hx]
            exact Or.inr hns
        · exact Or.inr hx

/-- When every candidate is already shown, the `format_context` loop is the
identity on its accumulators. -/
theorem fc_loop_all_shown :
    ∀ (ms : List Mem) (shown : List String) (count : Nat)
      (lines ids : List String),
      (∀ m ∈ ms, mem_doc_id m ∈ shown) →
      fc_loop ms shown count lines ids = (lines, ids, count) := by
  intro ms
  induction ms with
  | nil => intro shown count lines ids _; rfl
  | cons m rest ih =>
    intro shown count lines ids hall
    unfold fc_loop
    split
    · rfl
    · rw [if_pos (hall m (List.mem_cons_self m rest))]
      exact ih _ _ _ _ (fun m' hm' => hall m' (List.mem_cons_of_mem m hm'))

/-- C3 amended: the pre-tool-use Context Formatter
(`memory_injection.format_context`) filters the shown set — no returned
identifier is a member of it, and when every candidate's identifier is
already shown both return values are empty.  The combined prompt-time
formatter provides no such filtering (see its counterexample): it never
receives the shown set. -/
theorem format_context_filters_shown (memories : List Mem) (shown : List String) :
    (∀ id ∈ (format_context memories shown).2, id ∉ shown) ∧
    ((∀ m ∈ memories, mem_doc_id m ∈ shown) →
      format_context memories shown = ("", [])) := by
  constructor
  · intro id hid
    unfold format_context at hid
    split at hid
    · simp at hid
    · dsimp only at hid
      split at hid
      · simp at hid
      · rcases fc_loop_ids_mem _ _ _ _ _ _ hid with h | h
        · simp at h
        · exact h
  · intro hall
    unfold format_context
    split
    · rfl
    · rw [fc_loop_all_shown _ _ _ _ _ hall]
      rfl

/-- Witness for the amended C3: a fresh identifier passes the filter, and
an all-shown candidate list yields empty outputs. -/
theorem format_context_filters_shown_witness :
    "b" ∉ ["a"] ∧ format_context [memIdA] ["a"] = ("", []) :=
  ⟨(format_context_filters_shown [memIdB] ["a"]).1 "b" (by decide),
   (format_context_filters_shown [memIdA] ["a"]).2 (by decide)⟩

/-- C3 counterexample: the combined prompt-time formatter
(`prompt_context.format_output`) performs no shown-set filtering — with
candidate `memIdA` (identifier "a") and shown set `["a"]`, its
newly-surfaced identifier list still contains "a". -/
theorem format_output_ignores_shown :
    ¬ (∀ id ∈ (format_output (fun _ => Subproc.timeout) [memIdA]).2.2,
        id ∉ ["a"]) := by decide

/-- A candidate lacking (truthy) title, file and path fields. -/
def lacksTitleAndLocation (m : Mem) : Prop :=
  m.title.getD "" = "" ∧ m.file.getD "" = "" ∧ m.path.getD "" = ""

/-- The first-candidate block of `format_output` only surfaces an
identifier when the candidate has a title and a location. -/
theorem fo_first_ids (run : String → Subproc) (m : Mem) (x : String)
    (h : x ∈ (fo_first run m).2.2) :
    ¬ lacksTitleAndLocation m ∧ x = m.id.getD (m.file.getD (m.path.getD "")) := by
  unfold fo_first at h
  dsimp only at h
  split at h
  · constructor
    · rename_i hguard
      intro hl
      rcases hl with ⟨h1, h2, h3⟩
      rw [Bool.and_eq_true] at hguard
      have : m.title.getD (m.path.getD "") = "" := by
        cases ht : m.title with
        | none =>
          cases hp : m.path with
          | none => simp
          | some p => simpa [hp] using h3
        | some t => simpa [ht] using h1
      simp [this] at hguard
    · simpa using List.mem_singleton.1 h
  · simp at h

/-- Every identifier the snippet loop of `format_output` appends beyond
the incoming accumulator comes from a candidate with a title or a
location. -/
theorem fo_rest_loop_ids :
    ∀ (ms : List Mem) (context_parts ids : List String) (x : String),
      x ∈ (fo_rest_loop ms context_parts ids).2 →
      x ∈ ids ∨ ∃ m ∈ ms, ¬ lacksTitleAndLocation m ∧
        x = m.id.getD (m.file.getD (m.path.getD "")) := by
  intro ms
  induction ms with
  | nil => intro cps ids x h; exact Or.inl h
  | cons m rest ih =>
    intro cps ids x h
    unfold fo_rest_loop at h
    dsimp only at h
    split at h
    · rcases ih _ _ _ h with hx | ⟨m', hm', hx⟩
      · exact Or.inl hx
      · exact Or.inr ⟨m', List.mem_cons_of_mem m hm', hx⟩
    · rename_i hmt
      rcases ih _ _ _ h with hx | ⟨m', hm', hx⟩
      · rcases List.mem_append.1 hx with hx | hx
        · exact Or.inl hx
        · refine Or.inr ⟨m, List.mem_cons_self m rest, ?_, List.mem_singleton.1 hx⟩
          intro hl
          rcases hl with ⟨h1, h2, h3⟩
          apply hmt
          have hfile : m.file.getD (m.path.getD "") = "" := by
            cases hf : m.file with
            | none =>
              cases hp : m.path with
              | none => simp
              | some p => simpa [hp] using h3
            | some f => simpa [hf] using h2
          cases ht : m.title with
          | none => simp [hfile]
          | some t => simpa [ht] using h1
      · exact Or.inr ⟨m', List.mem_cons_of_mem m hm', hx⟩

/-- C9 amended: in the combined prompt-time formatter
(`prompt_context.format_output`) a candidate lacking both a title and a
location is skipped entirely — every surfaced identifier comes from a
candidate having one of them — and when only the display title is absent
the location (path) string is substituted for it, leaving the output
unchanged.  The pre-tool-use formatter (`memory_injection.format_context`)
instead renders such candidates under the placeholder "Unknown" (see the
counterexample). -/
theorem format_output_skips_and_substitutes :
    (∀ (run : String → Subproc) (ms : List Mem),
      ∀ id ∈ (format_output run ms).2.2, ∃ m ∈ ms, ¬ lacksTitleAndLocation m ∧
        id = m.id.getD (m.file.getD (m.path.getD ""))) ∧
    (∀ (run : String → Subproc) (m : Mem) (tl : List Mem), m.title = none →
      format_output run (m :: tl) =
        format_output run
          (⟨m.id, m.path, m.path, m.file, m.snippet, m.content⟩ :: tl)) := by
  constructor
  · intro run ms id hid
    cases ms with
    | nil => simp [format_output] at hid
    | cons first restAll =>
      simp only [format_output] at hid
      split at hid
      · rcases fo_rest_loop_ids _ _ _ _ hid with hx | ⟨m', hm', hx⟩
        · exact ⟨first, List.mem_cons_self first restAll,
            fo_first_ids run first id hx⟩
        · exact ⟨m', List.mem_cons_of_mem first (List.take_subset _ _ hm'), hx⟩
      · exact ⟨first, List.mem_cons_self first restAll,
          fo_first_ids run first id hid⟩
  · intro run m tl h
    have hfirst : fo_first run m =
        fo_first run ⟨m.id, m.path, m.path, m.file, m.snippet, m.content⟩ := by
      unfold fo_first
      cases hp : m.path <;> simp [h, hp]
    simp only [format_output, hfirst, List.length_cons]

/-- Witness for the amended C9: a concrete surfaced identifier traces back
to a titled candidate, and dropping the title of `memNoTitle` is the same
as substituting its path. -/
theorem format_output_skips_witness :
    (∃ m ∈ [memIdA], ¬ lacksTitleAndLocation m ∧
      "a" = m.id.getD (m.file.getD (m.path.getD ""))) ∧
    format_output (fun _ => Subproc.timeout) [memNoTitle] =
      format_output (fun _ => Subproc.timeout)
        [⟨memNoTitle.id, memNoTitle.path, memNoTitle.path, memNoTitle.file,
          memNoTitle.snippet, memNoTitle.content⟩] :=
  ⟨format_output_skips_and_substitutes.1 (fun _ => Subproc.timeout) [memIdA] "a"
     (by decide),
   format_output_skips_and_substitutes.2 (fun _ => Subproc.timeout) memNoTitle []
     rfl⟩

/-- C9 counterexample: the pre-tool-use formatter does not skip a
candidate that has neither title nor location — `memOnlyId` (identifier
"x", nothing else) is rendered under the placeholder "Unknown" and its
identifier is surfaced, contradicting the claimed skip. -/
theorem format_context_keeps_titleless_candidate :
    (format_context [memOnlyId] []).2 = ["x"] ∧
    pyIn "Unknown" (format_context [memOnlyId] []).1 = true := by decide

/-- A 250-character text with no extractable word, so the Query Builder
yields no tokens on the fallback path. -/
def bangs : String := ⟨List.replicate 250 '!'⟩

set_option maxRecDepth 40000 in
/-- C8 counterexample: when the Query Builder yields no tokens, the
prompt-time fork-suggestion driver (`fork_suggest_hook.query_qmd`) uses
the full raw text as the query — here a 250-character text passes through
uncapped, while the pre-tool-use driver caps the same text at 200
characters. -/
theorem fork_fallback_query_unbounded :
    extract_keywords none bangs 6 = [] ∧
    fs_build_query none bangs = bangs ∧
    200 < bangs.length ∧
    (mi_build_query none bangs).length = 200 := by decide

/-- C8 amended: when the Query Builder yields no tokens on a non-empty
raw text, the pre-tool-use driver (`memory_injection`) and the combined
prompt-time driver (`prompt_context`) use the 200-character prefix of the
raw text as the query — bounded by 200 and non-empty; the fork-suggestion
driver instead falls back to the unbounded full text (see the
counterexample). -/
theorem prefix_fallback_bounded (engine : Option (String → Option (List String)))
    (text : String) (h8 : extract_keywords engine text 8 = [])
    (h6 : extract_keywords engine text 6 = []) :
    mi_build_query engine text = pyTake 200 text ∧
    pc_build_query engine text = pyTake 200 text ∧
    (pyTake 200 text).length ≤ 200 ∧
    (text ≠ "" → pyTake 200 text ≠ "") := by
  refine ⟨?_, ?_, ?_, ?_⟩
  · simp [mi_build_query, h8]
  · simp [pc_build_query, h6]
  · show (text.data.take 200).length ≤ 200
    rw [List.length_take]
    exact Nat.min_le_left _ _
  · intro hne hempty
    apply hne
    have : text.data.take 200 = [] := congrArg String.data hempty
    rcases List.take_eq_nil_iff.1 this with h | h
    · exact absurd h (by decide)
    · exact congrArg String.mk h

set_option maxRecDepth 40000 in
/-- Witness for the amended C8 at the concrete no-token text. -/
theorem prefix_fallback_bounded_witness :
    mi_build_query none bangs = pyTake 200 bangs ∧
    pc_build_query none bangs = pyTake 200 bangs ∧
    (pyTake 200 bangs).length ≤ 200 ∧
    (bangs ≠ "" → pyTake 200 bangs ≠ "") :=
  prefix_fallback_bounded none bangs (by decide) (by decide)

/-- Every word found by the fallback regex is non-empty and consists of
word characters only. -/
theorem findWordsAux_shape :
    ∀ (fuel : Nat) (l : List Char) (w : String), w ∈ findWordsAux fuel l →
      w.data ≠ [] ∧ ∀ c ∈ w.data, isWordCont c = true := by
  intro fuel
  induction fuel with
  | zero => intro l w h; simp [findWordsAux] at h
  | succ fuel ih =>
    intro l w h
    cases l with
    | nil => simp [findWordsAux] at h
    | cons c cs =>
      unfold findWordsAux at h
      split at h
      · rcases List.mem_cons.1 h with hw | hw
        · subst hw
          refine ⟨by simp, ?_⟩
          intro x hx
          rcases List.mem_cons.1 hx with hx | hx
          · subst hx
            rename_i hstart
            simp [isWordCont, hstart]
          · exact List.mem_takeWhile_imp hx
        · exact ih _ _ hw
      · exact ih _ _ h

/-- `firstSeen` only returns elements of its input. -/
theorem firstSeenAux_subset :
    ∀ (fuel : Nat) (l : List String) (w : String),
      w ∈ firstSeenAux fuel l → w ∈ l := by
  intro fuel
  induction fuel with
  | zero => intro l w h; simp [firstSeenAux] at h
  | succ fuel ih =>
    intro l w h
    cases l with
    | nil => simp [firstSeenAux] at h
    | cons x xs =>
      unfold firstSeenAux at h
      rcases List.mem_cons.1 h with hw | hw
      · exact hw ▸ List.mem_cons_self x xs
      · exact List.mem_cons_of_mem x (List.mem_of_mem_filter (ih _ _ hw))

/-- Every keyword the fallback extraction returns occurs in the filtered
word list. -/
theorem fallback_keywords_mem (text : String) (n : Nat) (w : String)
    (h : w ∈ fallback_keywords text n) :
    w ∈ (findWords (pyLower text)).filter
      (fun w => decide (w ∉ STOPWORDS) && decide (3 ≤ w.length)) := by
  unfold fallback_keywords mostCommon at h
  have h1 := List.take_subset _ _ h
  have h2 := (List.perm_insertionSort
    (fun a b => List.count b _ ≤ List.count a _) (firstSeen _)).subset h1
  exact firstSeenAux_subset _ _ _ h2

/-- Word characters are unaffected by ASCII lowering. -/
theorem pyLowerChar_wordCont (c : Char) (h : isWordCont c = true) :
    pyLowerChar c = c := by
  unfold pyLowerChar
  unfold isWordCont isWordStart at h
  simp only [Bool.or_eq_true, Bool.and_eq_true, decide_eq_true_eq] at h
  rcases h with ((⟨h1, _⟩ | ⟨_, h2⟩) | h) | h
  · rw [if_neg]
    simp only [Bool.and_eq_true, decide_eq_true_eq, not_and]
    intro _
    exact not_le.2 (lt_of_lt_of_le (by decide : 'Z' < 'a') h1)
  · rw [if_neg]
    simp only [Bool.and_eq_true, decide_eq_true_eq, not_and]
    intro hA
    exact absurd (le_trans hA h2) (by decide)
  · subst h; rfl
  · subst h; rfl

/-- A string of word characters is already lowercase. -/
theorem pyLower_fixed (w : String) (h : ∀ c ∈ w.data, isWordCont c = true) :
    pyLower w = w := by
  unfold pyLower
  have : w.data.map pyLowerChar = w.data := by
    rw [List.map_congr_left (fun c hc => pyLowerChar_wordCont c (h c hc))]
    exact List.map_id _
  rw [this]

/-- Splitting skips over a separator-free chunk, accumulating it. -/
theorem splitChAux_append_nosep (sep : Char) :
    ∀ (x rest acc : List Char), (∀ c ∈ x, c ≠ sep) →
      splitChAux sep (x ++ rest) acc = splitChAux sep rest (x.reverse ++ acc) := by
  intro x
  induction x with
  | nil => intro rest acc _; simp
  | cons c cs ih =>
    intro rest acc h
    have hc : c ≠ sep := h c (List.mem_cons_self c cs)
    have step : splitChAux sep ((c :: cs) ++ rest) acc =
        splitChAux sep (cs ++ rest) (c :: acc) := by
      rw [List.cons_append]
      simp [splitChAux, hc]
    rw [step, ih rest (c :: acc) (fun d hd => h d (List.mem_cons_of_mem c hd))]
    simp

/-- Splitting is a left inverse of joining for non-empty lists of
separator-free chunks. -/
theorem split_join (sep : Char) :
    ∀ ls, ls ≠ [] → (∀ x ∈ ls, ∀ c ∈ x, c ≠ sep) →
      splitChAux sep (joinCh sep ls) [] = ls := by
  intro ls
  induction ls with
  | nil => intro h _; exact absurd rfl h
  | cons x tl ih =>
    intro _ hns
    cases tl with
    | nil =>
      have hx := splitChAux_append_nosep sep x [] []
        (hns x (List.mem_cons_self x []))
      rw [List.append_nil] at hx
      show splitChAux sep x [] = [x]
      rw [hx]
      simp [splitChAux]
    | cons y tl' =>
      show splitChAux sep (x ++ sep :: joinCh sep (y :: tl')) [] = x :: y :: tl'
      rw [splitChAux_append_nosep sep x _ []
        (hns x (List.mem_cons_self x _))]
      have hsep : splitChAux sep (sep :: joinCh sep (y :: tl')) (x.reverse ++ []) =
          (x.reverse ++ []).reverse :: splitChAux sep (joinCh sep (y :: tl')) [] := by
        simp [splitChAux]
      rw [hsep, ih (by simp) (fun z hz => hns z (List.mem_cons_of_mem x hz))]
      simp

/-- Space-tokenizing a space-joined keyword query recovers exactly the
keywords, provided each keyword is non-empty and space-free. -/
theorem queryTokens_join (kws : List String)
    (h : ∀ w ∈ kws, w.data ≠ [] ∧ ∀ c ∈ w.data, c ≠ ' ') :
    queryTokens (keywords_to_query kws) = kws := by
  cases hk : kws with
  | nil => rfl
  | cons w tl =>
    unfold queryTokens keywords_to_query
    rw [split_join ' ' ((w :: tl).map String.data) (by simp)
      (by
        intro x hx c hc
        rcases List.mem_map.1 hx with ⟨s, hs, rfl⟩
        exact (h s (hk ▸ hs)).2 c hc)]
    rw [List.map_map]
    have hmk : ((w :: tl).map (String.mk ∘ String.data)) = w :: tl := by
      rw [List.map_congr_left (fun s _ => rfl)]
      exact List.map_id _
    rw [hmk]
    apply List.filter_eq_self.2
    intro s hs
    have := (h s (hk ▸ hs)).1
    simp only [ne_eq, decide_eq_true_eq]
    intro he
    exact this (congrArg String.data he)

/-- C4 amended: on the fallback path of the Query Builder — the
statistical engine absent (`ImportError`) or raising — the query built by
`keywords_to_query(extract_keywords(text, max_keywords))` has at most
`max_keywords` space-separated tokens and none of its tokens is a
stop-word (case-insensitively: each token is its own lowercase form and
avoids `STOPWORDS`).  On the primary path the engine's keyphrases may be
bigrams, which breaks both bounds (see the counterexample). -/
theorem fallback_query_bounded_no_stopword
    (engine : Option (String → Option (List String))) (text : String)
    (max_keywords : Nat)
    (hfb : engine = none ∨ ∃ f, engine = some f ∧ f text = none) :
    (queryTokens (keywords_to_query
       (extract_keywords engine text max_keywords))).length ≤ max_keywords ∧
    ∀ tok ∈ queryTokens (keywords_to_query
       (extract_keywords engine text max_keywords)),
      pyLower tok ∉ STOPWORDS := by
  have hex : extract_keywords engine text max_keywords = [] ∨
      extract_keywords engine text max_keywords =
        fallback_keywords text max_keywords := by
    unfold extract_keywords
    split
    · exact Or.inl rfl
    · rcases hfb with h | ⟨f, hf, hft⟩
      · rw [h]
        exact Or.inr rfl
      · subst hf
        dsimp only
        rw [hft]
        exact Or.inr rfl
  rcases hex with hex | hex <;> rw [hex]
  · exact ⟨by simp [queryTokens, keywords_to_query, joinCh, splitChAux],
      by simp [queryTokens, keywords_to_query, joinCh, splitChAux]⟩
  · have hshape : ∀ w ∈ fallback_keywords text max_keywords,
        w.data ≠ [] ∧ ∀ c ∈ w.data, isWordCont c = true := by
      intro w hw
      have := List.of_mem_filter (fallback_keywords_mem text max_keywords w hw)
      exact findWordsAux_shape _ _ w
        (List.mem_of_mem_filter (fallback_keywords_mem text max_keywords w hw))
    have htok : queryTokens (keywords_to_query
        (fallback_keywords text max_keywords)) =
        fallback_keywords text max_keywords := by
      apply queryTokens_join
      intro w hw
      refine ⟨(hshape w hw).1, fun c hc hsp => ?_⟩
      have := (hshape w hw).2 c hc
      rw [hsp] at this
      simp [isWordCont, isWordStart] at this
    rw [htok]
    constructor
    · unfold fallback_keywords mostCommon
      exact (List.length_take _ _).trans_le (Nat.min_le_left _ _)
    · intro tok htk
      have hmem := fallback_keywords_mem text max_keywords tok htk
      have hpred := List.of_mem_filter hmem
      simp only [Bool.and_eq_true, decide_eq_true_eq] at hpred
      rw [pyLower_fixed tok (hshape tok htk).2]
      exact hpred.1

/-- Witness for the amended C4 on a concrete fallback extraction. -/
theorem fallback_query_bounded_no_stopword_witness :
    (queryTokens (keywords_to_query (extract_keywords none
       "implement rate limiting with redis sliding window" 3))).length ≤ 3 ∧
    ∀ tok ∈ queryTokens (keywords_to_query (extract_keywords none
       "implement rate limiting with redis sliding window" 3)),
      pyLower tok ∉ STOPWORDS :=
  fallback_query_bounded_no_stopword none
    "implement rate limiting with redis sliding window" 3 (Or.inl rfl)

/-- A stand-in for an installed YAKE engine returning one bigram
keyphrase, as its `n=2` configuration allows. -/
def yakeBigram : String → Option (List String) := fun _ => some ["user file"]

/-- C4 counterexample: with the statistical engine present and returning a
bigram keyphrase, the query built for `max_keywords = 1` has two
space-separated tokens, and both are stop-words of the fixed list — the
source truncates keyphrases, not tokens, and applies no stop-word filter
on that path. -/
theorem yake_bigram_query_exceeds_bound :
    (queryTokens (keywords_to_query (extract_keywords (some yakeBigram)
       "working on the user file handling module" 1))).length = 2 ∧
    "file" ∈ queryTokens (keywords_to_query (extract_keywords (some yakeBigram)
       "working on the user file handling module" 1)) ∧
    "file" ∈ STOPWORDS ∧ pyLower "file" = "file" := by decide

/-- Looking up a path just written finds the written contents. -/
theorem lookup_setFile (files : List (String × String)) (p c : String) :
    (setFile files p c).lookup p = some c := by
  induction files with
  | nil => simp [setFile, List.lookup]
  | cons e rest ih =>
    rcases e with ⟨q, d⟩
    unfold setFile
    split
    · simp [List.lookup]
    · rename_i hqp
      have hne : (p == q) = false := by
        simp only [beq_eq_false_iff_ne, ne_eq]
        exact fun h => hqp h.symm
      simp [List.lookup, hne, ih]

/-- C6: on writable storage with no stored fingerprint for the session,
the first skip-check on a non-empty text returns "proceed" (`false`) and
stores the text's fingerprint; the immediately following identical call
returns "skip" (`true`); and the skip-check on empty text returns "skip"
unconditionally.  The hypothesis on `hash` states that fingerprints carry
no surrounding whitespace, true of the md5 hex digests the source uses. -/
theorem skip_check_idempotent (hash : String → String) (fs : FS)
    (session_id text : String)
    (hr : fs.readFail = false) (hw : fs.writeFail = false)
    (habs : lookupFile fs (get_hash_path session_id) = none)
    (hne : text ≠ "")
    (hhex : pyStrip (hash text) = hash text) :
    (should_skip_query hash fs session_id text).1 = false ∧
    lookupFile (should_skip_query hash fs session_id text).2
      (get_hash_path session_id) = some (hash text) ∧
    (should_skip_query hash (should_skip_query hash fs session_id text).2
      session_id text).1 = true ∧
    (should_skip_query hash fs session_id "").1 = true := by
  have hex : fs.pathExists (get_hash_path session_id) = false := by
    simp [FS.pathExists, habs]
  have h1 : should_skip_query hash fs session_id text =
      (false, ⟨setFile fs.files (get_hash_path session_id) (hash text),
        fs.readFail, fs.writeFail⟩) := by
    unfold should_skip_query
    rw [if_neg hne]
    simp [hex, FS.write, hw]
  have hlk : lookupFile (⟨setFile fs.files (get_hash_path session_id) (hash text),
      fs.readFail, fs.writeFail⟩ : FS) (get_hash_path session_id) =
      some (hash text) := lookup_setFile fs.files _ _
  refine ⟨by rw [h1], by rw [h1]; exact hlk, ?_,
    by unfold should_skip_query; rw [if_pos rfl]⟩
  rw [h1]
  unfold should_skip_query
  rw [if_neg hne]
  simp [FS.pathExists, FS.read, lookupFile, lookup_setFile, hr, hhex]

/-- Witness for C6 at a concrete session, text and fingerprint oracle. -/
theorem skip_check_idempotent_witness :
    (should_skip_query (fun _ => "abcdef0123456789") fs0 "s" "think").1 = false ∧
    lookupFile (should_skip_query (fun _ => "abcdef0123456789") fs0 "s" "think").2
      (get_hash_path "s") = some "abcdef0123456789" ∧
    (should_skip_query (fun _ => "abcdef0123456789")
      (should_skip_query (fun _ => "abcdef0123456789") fs0 "s" "think").2
      "s" "think").1 = true ∧
    (should_skip_query (fun _ => "abcdef0123456789") fs0 "s" "").1 = true :=
  skip_check_idempotent (fun _ => "abcdef0123456789") fs0 "s" "think"
    rfl rfl (by decide) (by decide) (by decide)

/-- Single-character replacement is a character map. -/
theorem pyReplaceAux_singleton (p r : Char) :
    ∀ (fuel : Nat) (l : List Char), l.length ≤ fuel →
      pyReplaceAux fuel l [p] [r] = l.map (fun c => if c = p then r else c) := by
  intro fuel
  induction fuel with
  | zero =>
    intro l h
    rw [List.length_eq_zero.1 (Nat.le_zero.1 h)]
    rfl
  | succ fuel ih =>
    intro l h
    cases l with
    | nil => rfl
    | cons c cs =>
      have hlen : cs.length ≤ fuel := Nat.succ_le_succ_iff.1 h
      unfold pyReplaceAux
      by_cases hc : c = p
      · have hpre : ([p].isPrefixOf (c :: cs)) = true := by
          simp [List.isPrefixOf, hc]
        rw [if_pos hpre]
        simp only [List.length_cons, List.length_nil, List.drop_succ_cons,
          List.drop_zero, List.singleton_append, List.map_cons, if_pos hc]
        rw [ih cs hlen]
      · have hpre : ([p].isPrefixOf (c :: cs)) = false := by
          simp [List.isPrefixOf]
          exact fun h => absurd h.symm hc
        rw [if_neg (by simp [hpre])]
        simp only [List.map_cons, if_neg hc]
        rw [ih cs hlen]

/-- The sanitized session identifier contains neither `/` nor `\`. -/
theorem sanitize_no_separators (session_id : String) :
    '/' ∉ (sanitize_session_id session_id).data ∧
    '\\' ∉ (sanitize_session_id session_id).data := by
  unfold sanitize_session_id pyReplace
  have hd1 : ("/" : String).data = ['/'] := rfl
  have hd2 : ("\\" : String).data = ['\\'] := rfl
  have hd3 : ("-" : String).data = ['-'] := rfl
  rw [hd1, hd2, hd3]
  rw [pyReplaceAux_singleton '/' '-' _ _ (le_refl _)]
  rw [show (⟨session_id.data.map fun c => if c = '/' then '-' else c⟩ :
      String).data = session_id.data.map fun c => if c = '/' then '-' else c
    from rfl]
  rw [pyReplaceAux_singleton '\\' '-' _ _ (le_refl _)]
  constructor
  · rw [show (⟨(session_id.data.map fun c => if c = '/' then '-' else c).map
        fun c => if c = '\\' then '-' else c⟩ : String).data =
        (session_id.data.map fun c => if c = '/' then '-' else c).map
        fun c => if c = '\\' then '-' else c from rfl]
    intro hmem
    rcases List.mem_map.1 hmem with ⟨x, hx, hfx⟩
    rcases List.mem_map.1 hx with ⟨y, _, hfy⟩
    revert hfx
    subst hfy
    split <;> split <;> simp_all
  · rw [show (⟨(session_id.data.map fun c => if c = '/' then '-' else c).map
        fun c => if c = '\\' then '-' else c⟩ : String).data =
        (session_id.data.map fun c => if c = '/' then '-' else c).map
        fun c => if c = '\\' then '-' else c from rfl]
    intro hmem
    rcases List.mem_map.1 hmem with ⟨x, hx, hfx⟩
    revert hfx
    split <;> simp_all

/-- C10: for every session identifier — including ones containing `/`,
`\` or `..` — the sanitized identifier has no path-separator character,
so both Dedup Store file paths are `/tmp/` followed by a separator-free
name: immediate children of /tmp, never escaping it. -/
theorem session_paths_confined (session_id : String) :
    ('/' ∉ (sanitize_session_id session_id).data ∧
     '\\' ∉ (sanitize_session_id session_id).data) ∧
    (∃ rest, get_hash_path session_id = "/tmp/" ++ rest ∧
      '/' ∉ rest.data ∧ '\\' ∉ rest.data) ∧
    (∃ rest, get_shown_path session_id = "/tmp/" ++ rest ∧
      '/' ∉ rest.data ∧ '\\' ∉ rest.data) := by
  obtain ⟨hs, hb⟩ := sanitize_no_separators session_id
  refine ⟨⟨hs, hb⟩, ⟨sanitize_session_id session_id ++ "_memory_hash", rfl, ?_, ?_⟩,
    ⟨sanitize_session_id session_id ++ "_shown_memories", rfl, ?_, ?_⟩⟩ <;>
    rw [String.data_append] <;> intro hmem <;>
    rcases List.mem_append.1 hmem with hh | hh <;> revert hh <;>
    first
      | exact fun hh => hs hh
      | exact fun hh => hb hh
      | decide

/-- Witness for C10 at a session identifier containing separators and
parent-directory components. -/
theorem session_paths_confined_witness :
    '/' ∉ (sanitize_session_id "a/b..c\\d").data ∧
    '\\' ∉ (sanitize_session_id "a/b..c\\d").data :=
  (session_paths_confined "a/b..c\\d").1

/-- An identifier that survives the newline-join/strip/split round trip of
the shown-set file: non-empty, newline-free, no surrounding whitespace. -/
def goodId (s : String) : Prop :=
  s ≠ "" ∧ '\n' ∉ s.data ∧ pyStrip s = s

instance (s : String) : Decidable (goodId s) := by
  unfold goodId
  infer_instance

/-- The head of a character list, if any, is not Python whitespace. -/
def headNonWs : List Char → Prop
  | [] => True
  | c :: _ => pyWs c = false

/-- `dropWhile pyWs` output starts with a non-whitespace character. -/
theorem headNonWs_dropWhile : ∀ l : List Char, headNonWs (l.dropWhile pyWs) := by
  intro l
  induction l with
  | nil => trivial
  | cons c cs ih =>
    rw [List.dropWhile_cons]
    split
    · exact ih
    · rename_i h
      simpa [headNonWs] using h

/-- `dropWhile pyWs` fixes a list with a non-whitespace head. -/
theorem dropWhile_eq_self_of_headNonWs (l : List Char) (h : headNonWs l) :
    l.dropWhile pyWs = l := by
  cases l with
  | nil => rfl
  | cons c cs =>
    rw [List.dropWhile_cons]
    simp [headNonWs] at h
    simp [h]

/-- Stripping fixes a list whose two ends are non-whitespace. -/
theorem stripList_eq_self (l : List Char) (h1 : headNonWs l)
    (h2 : headNonWs l.reverse) : stripList l = l := by
  unfold stripList
  rw [dropWhile_eq_self_of_headNonWs l h1,
    dropWhile_eq_self_of_headNonWs l.reverse h2, List.reverse_reverse]

/-- A good identifier starts and ends with non-whitespace characters. -/
theorem goodId_head (s : String) (h : goodId s) :
    headNonWs s.data ∧ headNonWs s.data.reverse := by
  obtain ⟨hne, _, hstr⟩ := h
  have hdata : stripList s.data = s.data := congrArg String.data hstr
  constructor
  · cases hd : s.data with
    | nil => trivial
    | cons c cs =>
      show pyWs c = false
      by_contra hws
      have hws' : pyWs c = true := by simpa using hws
      have h1 : (c :: cs).dropWhile pyWs = cs.dropWhile pyWs := by
        simp [List.dropWhile_cons, hws']
      have h2 : (stripList (c :: cs)).length ≤ (cs.dropWhile pyWs).length := by
        unfold stripList
        rw [h1]
        calc ((cs.dropWhile pyWs).reverse.dropWhile pyWs).reverse.length
            = ((cs.dropWhile pyWs).reverse.dropWhile pyWs).length :=
              List.length_reverse _
          _ ≤ (cs.dropWhile pyWs).reverse.length :=
              (List.dropWhile_suffix _).length_le
          _ = (cs.dropWhile pyWs).length := List.length_reverse _
      have h3 : (cs.dropWhile pyWs).length ≤ cs.length :=
        (List.dropWhile_suffix _).length_le
      rw [hd] at hdata
      have h4 := congrArg List.length hdata
      simp only [List.length_cons] at h4
      omega
  · have hB : (s.data.dropWhile pyWs).reverse.dropWhile pyWs = s.data.reverse := by
      have hrr : ((s.data.dropWhile pyWs).reverse.dropWhile pyWs).reverse =
          s.data := hdata
      calc (s.data.dropWhile pyWs).reverse.dropWhile pyWs
          = ((s.data.dropWhile pyWs).reverse.dropWhile pyWs).reverse.reverse :=
            (List.reverse_reverse _).symm
        _ = s.data.reverse := by rw [hrr]
    rw [← hB]
    exact headNonWs_dropWhile _

/-- A join starts with its first chunk. -/
theorem joinCh_cons_exists (sep : Char) (x : List Char) (rest : List (List Char)) :
    ∃ t, joinCh sep (x :: rest) = x ++ t := by
  cases rest with
  | nil => exact ⟨[], by simp [joinCh]⟩
  | cons y tl => exact ⟨sep :: joinCh sep (y :: tl), rfl⟩

/-- A non-whitespace head survives appending. -/
theorem headNonWs_append (a t : List Char) (ha : a ≠ []) (h : headNonWs a) :
    headNonWs (a ++ t) := by
  cases a with
  | nil => exact absurd rfl ha
  | cons c cs => exact h

/-- Joining after adding a final chunk appends it after a separator. -/
theorem joinCh_concat (sep : Char) :
    ∀ (ls : List (List Char)) (x : List Char), ls ≠ [] →
      joinCh sep (ls ++ [x]) = joinCh sep ls ++ sep :: x := by
  intro ls
  induction ls with
  | nil => intro x h; exact absurd rfl h
  | cons a tl ih =>
    intro x _
    cases tl with
    | nil => simp [joinCh]
    | cons b tl' =>
      have : (a :: b :: tl') ++ [x] = a :: ((b :: tl') ++ [x]) := rfl
      rw [this]
      have hcons : (b :: tl') ++ [x] = b :: (tl' ++ [x]) := rfl
      show a ++ sep :: joinCh sep ((b :: tl') ++ [x]) =
        (a ++ sep :: joinCh sep (b :: tl')) ++ sep :: x
      rw [ih x (by simp)]
      simp

/-- A string is non-empty iff its character list is. -/
theorem data_ne_nil_of_ne_empty (s : String) (h : s ≠ "") : s.data ≠ [] :=
  fun hd => h (String.ext (hd.trans rfl))

/-- Stripping fixes the newline join of good identifiers. -/
theorem pyStrip_joinNL_good (L : List String) (hne : L ≠ [])
    (hgood : ∀ x ∈ L, goodId x) : pyStrip (joinNL L) = joinNL L := by
  show (⟨stripList (joinCh '\n' (L.map String.data))⟩ : String) =
    ⟨joinCh '\n' (L.map String.data)⟩
  rw [stripList_eq_self (joinCh '\n' (L.map String.data)) ?h1 ?h2]
  case h1 =>
    cases L with
    | nil => exact absurd rfl hne
    | cons s tl =>
      obtain ⟨t, ht⟩ := joinCh_cons_exists '\n' s.data (tl.map String.data)
      rw [show (s :: tl).map String.data = s.data :: tl.map String.data from rfl,
        ht]
      have hgs := hgood s (List.mem_cons_self s tl)
      exact headNonWs_append _ _ (data_ne_nil_of_ne_empty s hgs.1)
        (goodId_head s hgs).1
  case h2 =>
    rcases L.eq_nil_or_concat with h | ⟨N, x, hLx⟩
    · exact absurd h hne
    · rw [List.concat_eq_append] at hLx
      subst hLx
      have hgx := hgood x (by simp)
      have hxd : x.data ≠ [] := data_ne_nil_of_ne_empty x hgx.1
      have hxr : headNonWs x.data.reverse := (goodId_head x hgx).2
      cases N with
      | nil =>
        simp only [List.nil_append, List.map_cons, List.map_nil]
        exact hxr
      | cons n ntl =>
        have hmap : ((n :: ntl) ++ [x]).map String.data =
            ((n :: ntl).map String.data) ++ [x.data] := by simp
        rw [hmap, joinCh_concat '\n' ((n :: ntl).map String.data) x.data (by simp),
          List.reverse_append]
        have hrev : ('\n' :: x.data).reverse = x.data.reverse ++ ['\n'] := by simp
        rw [hrev, List.append_assoc]
        exact headNonWs_append _ _ (by simp [hxd]) hxr

/-- Parsing the written shown file recovers exactly the good identifier
list. -/
theorem parse_joinNL_good (L : List String) (hne : L ≠ [])
    (hgood : ∀ x ∈ L, goodId x) : splitNL (pyStrip (joinNL L)) = L := by
  rw [pyStrip_joinNL_good L hne hgood]
  unfold splitNL splitStr joinNL
  rw [show (⟨joinCh '\n' (L.map String.data)⟩ : String).data =
    joinCh '\n' (L.map String.data) from rfl]
  rw [split_join '\n' (L.map String.data) (by simpa using hne)
    (by
      intro x hx c hc hcn
      rcases List.mem_map.1 hx with ⟨s, hs, rfl⟩
      exact (hgood s hs).2.1 (hcn ▸ hc))]
  rw [List.map_map]
  rw [List.map_congr_left (fun s _ => rfl : ∀ s ∈ L, (String.mk ∘ String.data) s = id s)]
  exact List.map_id L

/-- Invariant of the shown-set file between `addShown` calls: readable and
writable storage whose file holds the newline join of a non-empty list of
good identifiers. -/
def shownInv (fs : FS) (session_id : String) (L : List String) : Prop :=
  fs.readFail = false ∧ fs.writeFail = false ∧
  lookupFile fs (get_shown_path session_id) = some (joinNL L) ∧
  L ≠ [] ∧ ∀ x ∈ L, goodId x

/-- Under the invariant, `getShown` returns exactly the stored
identifiers. -/
theorem get_shown_of_inv (fs : FS) (session_id : String) (L : List String)
    (hinv : shownInv fs session_id L) :
    get_shown_memories fs session_id = L.dedup := by
  obtain ⟨hr, _, hfile, hne, hgood⟩ := hinv
  unfold get_shown_memories
  simp only [FS.pathExists, hfile, Option.isSome_some, if_true, FS.read, hr,
    if_false, Bool.false_eq_true]
  rw [parse_joinNL_good L hne hgood]

/-- One `addShown` call with a non-empty batch of good identifiers
preserves the invariant and loses no member. -/
theorem add_shown_step (fs : FS) (session_id : String) (L b : List String)
    (hinv : shownInv fs session_id L) (hb : ∀ id ∈ b, goodId id)
    (hbne : b ≠ []) :
    shownInv (add_shown_memories fs session_id b) session_id
      ((L.dedup ++ b).dedup) ∧
    (∀ x ∈ L, x ∈ (L.dedup ++ b).dedup) ∧
    (∀ x ∈ b, x ∈ (L.dedup ++ b).dedup) := by
  obtain ⟨hr, hw, hfile, hne, hgood⟩ := hinv
  have hshown : get_shown_memories fs session_id = L.dedup :=
    get_shown_of_inv fs session_id L ⟨hr, hw, hfile, hne, hgood⟩
  have hgood' : ∀ x ∈ (L.dedup ++ b).dedup, goodId x := by
    intro x hx
    rcases List.mem_append.1 (List.mem_dedup.1 hx) with h | h
    · exact hgood x (List.mem_dedup.1 h)
    · exact hb x h
  have hne' : (L.dedup ++ b).dedup ≠ [] := by
    obtain ⟨y, hy⟩ := List.exists_mem_of_ne_nil b hbne
    exact List.ne_nil_of_mem
      (List.mem_dedup.2 (List.mem_append_right _ hy))
  have hstep : add_shown_memories fs session_id b =
      ⟨setFile fs.files (get_shown_path session_id)
        (joinNL ((L.dedup ++ b).dedup)), fs.readFail, fs.writeFail⟩ := by
    unfold add_shown_memories
    rw [hshown]
    simp [FS.write, hw]
  refine ⟨?_, ?_, ?_⟩
  · rw [hstep]
    exact ⟨hr, hw, lookup_setFile fs.files _ _, hne', hgood'⟩
  · intro x hx
    exact List.mem_dedup.2 (List.mem_append_left _ (List.mem_dedup.2 hx))
  · intro x hx
    exact List.mem_dedup.2 (List.mem_append_right _ hx)

/-- The first `addShown` call on absent storage establishes the
invariant with exactly the batch stored. -/
theorem add_shown_first (fs : FS) (session_id : String) (b : List String)
    (hr : fs.readFail = false) (hw : fs.writeFail = false)
    (habs : lookupFile fs (get_shown_path session_id) = none)
    (hb : ∀ id ∈ b, goodId id) (hbne : b ≠ []) :
    shownInv (add_shown_memories fs session_id b) session_id b.dedup ∧
    ∀ x ∈ b, x ∈ b.dedup := by
  have hshown : get_shown_memories fs session_id = [] := by
    unfold get_shown_memories
    simp [FS.pathExists, habs]
  have hgood' : ∀ x ∈ b.dedup, goodId x := fun x hx => hb x (List.mem_dedup.1 hx)
  have hne' : b.dedup ≠ [] := by
    obtain ⟨y, hy⟩ := List.exists_mem_of_ne_nil b hbne
    exact List.ne_nil_of_mem (List.mem_dedup.2 hy)
  have hstep : add_shown_memories fs session_id b =
      ⟨setFile fs.files (get_shown_path session_id) (joinNL b.dedup),
        fs.readFail, fs.writeFail⟩ := by
    unfold add_shown_memories
    rw [hshown]
    simp [FS.write, hw]
  refine ⟨?_, fun x hx => List.mem_dedup.2 hx⟩
  rw [hstep]
  exact ⟨hr, hw, lookup_setFile fs.files _ _, hne', hgood'⟩

/-- Running further `addShown` calls from an invariant state loses no
stored member and records every batch. -/
theorem runAdds_keeps :
    ∀ (batches : List (List String)) (fs : FS) (session_id : String)
      (L : List String), shownInv fs session_id L →
      (∀ bb ∈ batches, bb ≠ [] ∧ ∀ id ∈ bb, goodId id) →
      (∀ x ∈ L, x ∈ get_shown_memories (runAdds fs session_id batches)
        session_id) ∧
      (∀ bb ∈ batches, ∀ id ∈ bb,
        id ∈ get_shown_memories (runAdds fs session_id batches) session_id) := by
  intro batches
  induction batches with
  | nil =>
    intro fs session_id L hinv _
    refine ⟨fun x hx => ?_, by simp⟩
    show x ∈ get_shown_memories fs session_id
    rw [get_shown_of_inv fs session_id L hinv]
    exact List.mem_dedup.2 hx
  | cons b bs ih =>
    intro fs session_id L hinv hgb
    have hb := hgb b (List.mem_cons_self b bs)
    obtain ⟨hstep, hkeepL, hkeepB⟩ :=
      add_shown_step fs session_id L b hinv hb.2 hb.1
    have ihres := ih (add_shown_memories fs session_id b) session_id _ hstep
      (fun bb hbb => hgb bb (List.mem_cons_of_mem _ hbb))
    refine ⟨fun x hx => ihres.1 x (hkeepL x hx), fun bb hbb id hid => ?_⟩
    rcases List.mem_cons.1 hbb with h | h
    · exact ihres.1 id (hkeepB id (h ▸ hid))
    · exact ihres.2 bb h id hid

/-- C7 amended: starting from absent shown-set storage on readable and
writable storage, after any finite sequence of `addShown` calls whose
batches are non-empty lists of good identifiers (non-empty, newline-free,
no surrounding whitespace — the shape of real document ids), `getShown`
contains every identifier of every earlier batch: the persisted shown set
loses no member.  Identifiers violating the newline-free shape are lost by
the join/strip/split round trip of the file format (see the
counterexample). -/
theorem shown_set_monotone (session_id : String) (batches : List (List String))
    (fs : FS) (hr : fs.readFail = false) (hw : fs.writeFail = false)
    (habs : lookupFile fs (get_shown_path session_id) = none)
    (hgb : ∀ b ∈ batches, b ≠ [] ∧ ∀ id ∈ b, goodId id) :
    ∀ b ∈ batches, ∀ id ∈ b,
      id ∈ get_shown_memories (runAdds fs session_id batches) session_id := by
  cases batches with
  | nil => simp
  | cons b bs =>
    have hb := hgb b (List.mem_cons_self b bs)
    obtain ⟨hinv, hkeep⟩ :=
      add_shown_first fs session_id b hr hw habs hb.2 hb.1
    have ihres := runAdds_keeps bs (add_shown_memories fs session_id b)
      session_id b.dedup hinv (fun bb hbb => hgb bb (List.mem_cons_of_mem _ hbb))
    intro bb hbb id hid
    show id ∈ get_shown_memories
      (runAdds (add_shown_memories fs session_id b) session_id bs) session_id
    rcases List.mem_cons.1 hbb with h | h
    · exact ihres.1 id (hkeep id (h ▸ hid))
    · exact ihres.2 bb h id hid

/-- Witness for the amended C7 on a concrete two-call sequence. -/
theorem shown_set_monotone_witness :
    "a" ∈ get_shown_memories (runAdds fs0 "s" [["a"], ["b"]]) "s" ∧
    "b" ∈ get_shown_memories (runAdds fs0 "s" [["a"], ["b"]]) "s" :=
  ⟨shown_set_monotone "s" [["a"], ["b"]] fs0 rfl rfl (by decide) (by decide)
     ["a"] (by decide) "a" (by decide),
   shown_set_monotone "s" [["a"], ["b"]] fs0 rfl rfl (by decide) (by decide)
     ["b"] (by decide) "b" (by decide)⟩

/-- C7 counterexample: on fully writable storage, a single `addShown` of
the identifier `"a\nb"` is not reflected by the following `getShown` — the
newline join splits it into `"a"` and `"b"`, so the claimed superset
property fails as stated for arbitrary identifier lists. -/
theorem newline_id_breaks_monotonicity :
    "a\nb" ∉ get_shown_memories (runAdds fs0 "s" [["a\nb"]]) "s" := by decide

end Toolkit
